import Mathlib

/-
Verification development for the preprocessing script of the
Bangladesh-Climate-Forecast repository (scripts/data_preprocessing.py).

The pandas DataFrame is modelled as a list of named, homogeneously typed
columns.  Numeric cells are exact rationals (the script's float arithmetic
is idealised as exact arithmetic on ℚ); missing cells (NaN) are `none`.
Python exceptions are modelled with `Except`: a function that can raise
returns `Except String _`, and an `.error` value corresponds to an
uncaught exception escaping the translated function.
-/

set_option allowUnsafeReducibility true in
attribute [semireducible] Rat.add Rat.mul Rat.sub Rat.div Rat.neg Rat.inv Rat.ofScientific

deriving instance DecidableEq for Except

namespace ClimatePrep

/-- A typed scalar cell value of the record table: numeric or text. -/
inductive Value where
  | num (q : ℚ)
  | str (s : String)
  deriving DecidableEq

/-- One DataFrame column: an int64/float64 column or an object (text) column.
A `none` cell is a missing value (NaN). -/
inductive Col where
  | numeric (cells : List (Option ℚ))
  | text (cells : List (Option String))
  deriving DecidableEq

/-- A DataFrame: ordered named columns. -/
structure Table where
  cols : List (String × Col)
  deriving DecidableEq

/-- Number of cells stored in a column. -/
def Col.length : Col → Nat
  | .numeric cells => cells.length
  | .text cells => cells.length

/-- Count of missing cells in a column, as in `df[col].isnull().sum()`. -/
def Col.missingCount : Col → Nat
  | .numeric cells => cells.countP (fun x => x.isNone)
  | .text cells => cells.countP (fun x => x.isNone)

/-- Count of non-missing cells in a column. -/
def Col.presentCount : Col → Nat
  | .numeric cells => (cells.filterMap id).length
  | .text cells => (cells.filterMap id).length

/-- Row count of a table (length of its first column; 0 for no columns). -/
def Table.nrows (t : Table) : Nat :=
  match t.cols.head? with
  | some p => p.2.length
  | none => 0

/-- Rectangularity: every column has the common row count. -/
def Table.wellFormed (t : Table) : Prop :=
  ∀ p ∈ t.cols, p.2.length = t.nrows

instance (t : Table) : Decidable t.wellFormed :=
  inferInstanceAs (Decidable (∀ p ∈ t.cols, p.2.length = t.nrows))

/-- Column lookup by name, `df[name]`; `none` models a KeyError situation. -/
def Table.getCol? (t : Table) (name : String) : Option Col :=
  (t.cols.find? (fun p => p.1 == name)).map Prod.snd

/-- Column assignment `df[name] = series`: replace in place if the name
exists, else append the new column at the end. -/
def Table.setCol (t : Table) (name : String) (c : Col) : Table :=
  if t.cols.any (fun p => p.1 == name) then
    ⟨t.cols.map (fun p => if p.1 == name then (name, c) else p)⟩
  else
    ⟨t.cols ++ [(name, c)]⟩

/-! ### Cleaner (`clean_data`) -/

/-- The non-missing values of a numeric cell list, in row order. -/
def presents (cells : List (Option ℚ)) : List ℚ := cells.filterMap id

/-- The non-missing values sorted ascending. -/
def sortedPresents (cells : List (Option ℚ)) : List ℚ :=
  List.insertionSort (fun a b : ℚ => a ≤ b) (presents cells)

/-- `Series.median()`: middle order statistic (or the mean of the two middle
ones) of the non-missing values; NaN (`none`) when there are none. -/
def medianQ (cells : List (Option ℚ)) : Option ℚ :=
  let s := sortedPresents cells
  let n := s.length
  if n = 0 then none
  else if n % 2 = 1 then some (s.getD (n / 2) 0)
  else some ((s.getD (n / 2 - 1) 0 + s.getD (n / 2) 0) / 2)

/-- Python floor `//` on a rational: `q.num.fdiv q.den` is ⌊q⌋ because the
denominator is positive. -/
def qfloor (q : ℚ) : Int := q.num.fdiv (q.den : Int)

/-- Linear interpolation between adjacent sorted order statistics at the
(rational) fractional index `h`, as used by numpy's linear quantiles. -/
def quantPos (s : List ℚ) (h : ℚ) : ℚ :=
  let i := (qfloor h).toNat
  let lo := s.getD i 0
  let hi := s.getD (i + 1) lo
  lo + (h - (i : ℚ)) * (hi - lo)

/-- `Series.quantile(p)` with the default linear interpolation, computed on
the non-missing values; NaN (`none`) when there are none. -/
def quantileQ (cells : List (Option ℚ)) (p : ℚ) : Option ℚ :=
  let s := sortedPresents cells
  if s.length = 0 then none
  else some (quantPos s (p * ((s.length : ℚ) - 1)))

/-- Lexicographic (code-point) order on strings, the order Python/pandas
sort string values by.  Stated on the underlying character lists because
that form evaluates inside the kernel. -/
def strLe (a b : String) : Prop := a.data ≤ b.data

instance : DecidableRel strLe := fun a b => inferInstanceAs (Decidable (a.data ≤ b.data))

instance : IsTotal String strLe := ⟨fun a b => le_total a.data b.data⟩

instance : IsTrans String strLe := ⟨fun _ _ _ h1 h2 => le_trans h1 h2⟩

/-- `Series.mode()` on the non-missing values of an object column: the
values of maximal multiplicity, sorted ascending. -/
def seriesMode (l : List String) : List String :=
  let u := List.insertionSort strLe l.dedup
  let m := (u.map (fun v => l.count v)).foldr max 0
  u.filter (fun v => l.count v == m)

/-- `fillna(v)` on one cell: a present cell is kept, a missing cell becomes
`v` (when `v` is itself NaN, i.e. `none`, the cell stays missing). -/
def fillCell {α : Type} (v : Option α) : Option α → Option α
  | some w => some w
  | none => v

/-- One iteration of the missing-value loop of `clean_data`: if the column
has missing values, fill them with the median (numeric dtype) or with
`mode()[0]` (object dtype).  `median()` of an all-missing column is NaN and
`fillna(NaN)` changes nothing; `mode()[0]` of an all-missing column raises
`KeyError: 0` because the mode Series is empty. -/
def fillCol : Col → Except String Col
  | .numeric cells =>
    if cells.countP (fun x => x.isNone) = 0 then .ok (.numeric cells)
    else .ok (.numeric (cells.map (fillCell (medianQ cells))))
  | .text cells =>
    if cells.countP (fun x => x.isNone) = 0 then .ok (.text cells)
    else
      match (seriesMode (cells.filterMap id)).head? with
      | some m => .ok (.text (cells.map (fillCell (some m))))
      | none => .error "KeyError: 0"

/-- The missing-value loop of `clean_data` over all columns, in order. -/
def fillCols : List (String × Col) → Except String (List (String × Col))
  | [] => .ok []
  | p :: rest =>
    match fillCol p.2, fillCols rest with
    | .ok c, .ok rest2 => .ok ((p.1, c) :: rest2)
    | .error e, _ => .error e
    | .ok _, .error e => .error e

/-- The missing-value stage of `clean_data` as a table transformer. -/
def fillTable (t : Table) : Except String Table :=
  match fillCols t.cols with
  | .ok cs => .ok ⟨cs⟩
  | .error e => .error e

/-- `cleaned_df.loc[cleaned_df[col] < lower_bound, col] = lower_bound`. -/
def clampLow (lo v : ℚ) : ℚ := if v < lo then lo else v

/-- `cleaned_df.loc[cleaned_df[col] > upper_bound, col] = upper_bound`. -/
def clampHigh (hi v : ℚ) : ℚ := if hi < v then hi else v

/-- The IQR outlier step of `clean_data` on one numeric column: compute Q1
and Q3 of the (already filled) column, then clip below the lower bound and
above the upper bound, in that order.  When the column has no non-missing
values the quantiles are NaN, every comparison with NaN is false and the
column is left unchanged. -/
def clipNum (cells : List (Option ℚ)) : List (Option ℚ) :=
  match quantileQ cells (1/4), quantileQ cells (3/4) with
  | some q1, some q3 =>
    let iqr := q3 - q1
    let lo := q1 - 3/2 * iqr
    let hi := q3 + 3/2 * iqr
    (cells.map (fun x => x.map (clampLow lo))).map (fun x => x.map (clampHigh hi))
  | _, _ => cells

/-- Outlier clipping only touches int64/float64 columns. -/
def clipCol : Col → Col
  | .numeric cells => .numeric (clipNum cells)
  | .text cells => .text cells

/-- The outlier loop of `clean_data` over all (numeric) columns. -/
def clipTable (t : Table) : Table :=
  ⟨t.cols.map (fun p => (p.1, clipCol p.2))⟩

/-- `clean_data`: fill missing values per column, then clip outliers of the
numeric columns to the IQR bounds of the filled columns. -/
def clean_data (df : Table) : Except String Table :=
  match fillTable df with
  | .ok mid => .ok (clipTable mid)
  | .error e => .error e

/-! ### Feature Deriver (`feature_engineering`) -/

/-- Numeric column access `df[name]` followed by arithmetic: a missing
column raises KeyError, an object column raises TypeError. -/
def getNumCells (t : Table) (name : String) : Except String (List (Option ℚ)) :=
  match t.getCol? name with
  | none => .error ("KeyError: " ++ name)
  | some (.text _) => .error ("TypeError: " ++ name)
  | some (.numeric cells) => .ok cells

/-- `(Year // 10) * 10` for one cell. -/
def decadeOf (y : ℚ) : ℚ := (qfloor (y / 10) : ℚ) * 10

/-- Row-wise combination of three aligned series; any NaN operand makes the
result NaN. -/
def zipWith3 (f : Option ℚ → Option ℚ → Option ℚ → Option ℚ) :
    List (Option ℚ) → List (Option ℚ) → List (Option ℚ) → List (Option ℚ)
  | a :: as, b :: bs, c :: cs => f a b c :: zipWith3 f as bs cs
  | _, _, _ => []

/-- `Flood_Impact_Score * 0.3 + Drought_Severity * 0.3 + Cyclone_Count * 0.4`. -/
def crsCell (f d c : Option ℚ) : Option ℚ :=
  match f, d, c with
  | some a, some b, some e => some (a * 0.3 + b * 0.3 + e * 0.4)
  | _, _, _ => none

/-- `(Forest_Cover_Percent * 0.4 + (100 - AQI) * 0.3 + Renewable_Energy_Usage_Percent * 0.3) / 100`. -/
def ehiCell (fc a r : Option ℚ) : Option ℚ :=
  match fc, a, r with
  | some x, some y, some z => some ((x * 0.4 + (100 - y) * 0.3 + z * 0.3) / 100)
  | _, _, _ => none

/-- The interval a value falls into under `pd.cut` semantics with
`right=True`: `searchsorted` with side `left`, then `include_lowest`
rewrites the id of values equal to the first edge to 1; ids 0 and
`len(bins)` are NaN. -/
def cutAssign (bins : List ℚ) (labels : List String) (includeLowest : Bool) (x : ℚ) :
    Option String :=
  let i0 := bins.countP (fun b => decide (b < x))
  let i := if includeLowest && (bins.head? == some x) then 1 else i0
  if i = 0 ∨ i = bins.length then none
  else some (labels.getD (i - 1) "")

/-- `pd.cut(series, bins, labels, include_lowest)` as called by the script.
With the default `ordered=True`, pandas validates
`len(set(labels)) != len(labels)` and raises ValueError for duplicate
labels; an object series raises TypeError from `searchsorted` first. -/
def pd_cut (c : Col) (bins : List ℚ) (labels : List String)
    (includeLowest ordered : Bool) : Except String (List (Option String)) :=
  match c with
  | .text _ => .error "TypeError: unorderable types str and int"
  | .numeric cells =>
    if ordered && !(labels.dedup.length == labels.length) then
      .error "ValueError: labels must be unique if ordered=True"
    else
      .ok (cells.map (fun x => x.bind (cutAssign bins labels includeLowest)))

/-- The derived `Decade` series `(df['Year'] // 10) * 10`. -/
def decadeCol (year : List (Option ℚ)) : Col := .numeric (year.map (Option.map decadeOf))

/-- The derived `Climate_Risk_Score` series. -/
def crsCol (fl dr cy : List (Option ℚ)) : Col := .numeric (zipWith3 crsCell fl dr cy)

/-- The derived `Environmental_Health_Index` series. -/
def ehiCol (fo aq ren : List (Option ℚ)) : Col := .numeric (zipWith3 ehiCell fo aq ren)

/-- `feature_engineering`: adds `Decade`, `Climate_Risk_Score` and
`Environmental_Health_Index`, and — only when a `Month` column exists —
attempts the `pd.cut` seasonal bucketing. -/
def feature_engineering (df : Table) : Except String Table :=
  match getNumCells df "Year" with
  | .error e => .error e
  | .ok year =>
    let df1 := df.setCol "Decade" (decadeCol year)
    match getNumCells df1 "Flood_Impact_Score" with
    | .error e => .error e
    | .ok fl =>
      match getNumCells df1 "Drought_Severity" with
      | .error e => .error e
      | .ok dr =>
        match getNumCells df1 "Cyclone_Count" with
        | .error e => .error e
        | .ok cy =>
          let df2 := df1.setCol "Climate_Risk_Score" (crsCol fl dr cy)
          match getNumCells df2 "Forest_Cover_Percent" with
          | .error e => .error e
          | .ok fo =>
            match getNumCells df2 "AQI" with
            | .error e => .error e
            | .ok aq =>
              match getNumCells df2 "Renewable_Energy_Usage_Percent" with
              | .error e => .error e
              | .ok ren =>
                let df3 := df2.setCol "Environmental_Health_Index" (ehiCol fo aq ren)
                match df3.getCol? "Month" with
                | none => .ok df3
                | some mc =>
                  match pd_cut mc [0, 2, 5, 8, 11, 12]
                      ["Winter", "Spring", "Summer", "Autumn", "Winter"] true true with
                  | .error e => .error e
                  | .ok seasons => .ok (df3.setCol "Season" (.text seasons))

/-! ### Regional Partitioner (`split_by_region`) -/

def coastalDistricts : List String :=
  ["Cox\x27s Bazar", "Chattogram", "Khulna", "Barishal", "Satkhira", "Patuakhali"]

def northernDistricts : List String :=
  ["Rangpur", "Rajshahi", "Dinajpur", "Bogura", "Panchagarh", "Thakurgaon"]

def centralDistricts : List String :=
  ["Dhaka", "Gazipur", "Narayanganj", "Tangail", "Mymensingh"]

/-- `df['District'].isin(districts)`: missing cells and non-string columns
never match. -/
def isinMask (c : Col) (districts : List String) : List Bool :=
  match c with
  | .numeric cells => cells.map (fun _ => false)
  | .text cells =>
    cells.map (fun x =>
      match x with
      | some v => districts.contains v
      | none => false)

/-- Negation of a boolean mask, `~mask`. -/
def notMask (m : List Bool) : List Bool := m.map (fun b => !b)

/-- Boolean-mask row selection `df[mask]` on one cell list. -/
def maskFilter : List Bool → List α → List α
  | b :: bs, x :: xs => if b then x :: maskFilter bs xs else maskFilter bs xs
  | _, _ => []

/-- Boolean-mask row selection `df[mask]` on a whole table. -/
def filterTable (t : Table) (mask : List Bool) : Table :=
  ⟨t.cols.map (fun p =>
    (p.1,
      match p.2 with
      | .numeric cells => Col.numeric (maskFilter mask cells)
      | .text cells => Col.text (maskFilter mask cells)))⟩

/-- The District value of row `i`, when the District column is textual. -/
def districtAt (c : Col) (i : Nat) : Option String :=
  match c with
  | .text cells => cells.getD i none
  | .numeric _ => none

/-- `split_by_region`: the four regional sub-tables (coastal, northern,
central, other). A table without a District column raises KeyError. -/
def split_by_region (df : Table) : Except String (Table × Table × Table × Table) :=
  match df.getCol? "District" with
  | none => .error "KeyError: District"
  | some c =>
    .ok (filterTable df (isinMask c coastalDistricts),
         filterTable df (isinMask c northernDistricts),
         filterTable df (isinMask c centralDistricts),
         filterTable df (notMask (isinMask c
           (coastalDistricts ++ northernDistricts ++ centralDistricts))))

/-! ### Loader and Writer (`load_data`, `save_processed_data`)

The delimited file is modelled at the granularity the round-trip claim
speaks about — a header row plus a grid of typed cells — abstracting the
textual rendering of each cell ("modulo stable floating-point formatting");
an empty cell is a missing value. -/

/-- Parsed CSV content: header names and rows of optional typed cells. -/
structure CSV where
  header : List String
  rows : List (List (Option Value))
  deriving DecidableEq

/-- Cell `i` of a column, as written to the file. -/
def Col.cellVal (c : Col) (i : Nat) : Option Value :=
  match c with
  | .numeric cells => (cells.getD i none).map Value.num
  | .text cells => (cells.getD i none).map Value.str

/-- `df.to_csv(path, index=False)`: the header is exactly the column names
(no synthetic index column) followed by the rows in order. -/
def tableToCSV (t : Table) : CSV :=
  ⟨t.cols.map Prod.fst,
   (List.range t.nrows).map (fun i => t.cols.map (fun p => p.2.cellVal i))⟩

/-- `read_csv` dtype inference for one column: all-numeric cells (including
an all-missing column) give a float column, otherwise all-text cells give
an object column.  A column mixing numeric and text cells would become an
object column of mixed Python values, which this table model cannot
represent; it yields `none` and is unreachable from `tableToCSV`. -/
def colFromCells (cells : List (Option Value)) : Option Col :=
  if cells.all (fun x =>
      match x with
      | some (Value.str _) => false
      | _ => true) then
    some (.numeric (cells.map (fun x =>
      x.bind (fun v =>
        match v with
        | Value.num q => some q
        | Value.str _ => none))))
  else if cells.all (fun x =>
      match x with
      | some (Value.num _) => false
      | _ => true) then
    some (.text (cells.map (fun x =>
      x.bind (fun v =>
        match v with
        | Value.str s => some s
        | Value.num _ => none))))
  else none

/-- Build the columns named by the header from a cell grid, reading column
`j` as the `j`-th field of every row (short rows pad with missing). -/
def buildCols (rows : List (List (Option Value))) :
    List String → Nat → Option (List (String × Col))
  | [], _ => some []
  | n :: ns, j =>
    match colFromCells (rows.map (fun r => r.getD j none)), buildCols rows ns (j + 1) with
    | some c, some rest => some ((n, c) :: rest)
    | _, _ => none

/-- `pd.read_csv` on parsed CSV content. -/
def csvToTable (csv : CSV) : Option Table :=
  (buildCols csv.rows csv.header 0).map Table.mk

/-- `load_data`: the `try` block reads and parses the file; any failure is
caught by `except Exception`, the reason is printed and `None` is
returned.  The abstract `readResult` is the outcome of `pd.read_csv`; the
returned pair is (result, printed message). -/
def load_data (readResult : Except String CSV) : Option Table × String :=
  match readResult with
  | .error e => (none, "Error loading dataset: " ++ e)
  | .ok csv =>
    match csvToTable csv with
    | some t =>
      (some t, "Dataset loaded successfully with " ++ toString t.nrows ++
        " rows and " ++ toString t.cols.length ++ " columns")
    | none => (none, "unrepresentable heterogeneous column")

/-- `save_processed_data`: writes `tableToCSV df` at `outputPath`; a write
failure is caught by `except Exception` and reported.  The abstract
`writeResult` is the outcome of the filesystem write; the returned pair is
(file content actually persisted, printed message), and the function
always returns normally. -/
def save_processed_data (df : Table) (outputPath : String)
    (writeResult : Except String Unit) : Option CSV × String :=
  match writeResult with
  | .ok _ => (some (tableToCSV df), "Processed data saved to " ++ outputPath)
  | .error e => (none, "Error saving processed data: " ++ e)

/-! ### Concrete tables used in the claim theorems and witnesses -/

/-- Whether a column has numeric (int64/float64) dtype. -/
def Col.isNumeric : Col → Bool
  | .numeric _ => true
  | .text _ => false

def T2w : Table :=
  ⟨[("N", Col.numeric [some 1, none, some 3]), ("T", Col.text [some "b", none, some "b"])]⟩

def T2wOut : Table :=
  ⟨[("N", Col.numeric [some 1, some 2, some 3]),
    ("T", Col.text [some "b", some "b", some "b"])]⟩

def c4cells : List (Option ℚ) := [some 1, some 2, some 3, some 4, some 100]

def T4w : Table := ⟨[("A", Col.numeric c4cells)]⟩

def T4wOut : Table := ⟨[("A", Col.numeric [some 1, some 2, some 3, some 4, some 7])]⟩

def T10 : Table := ⟨[("T", Col.text [some "b", some "a", none, some "a", some "b"])]⟩

def T10out : Table :=
  ⟨[("T", Col.text [some "b", some "a", some "a", some "a", some "b"])]⟩

def T1month : Table :=
  ⟨[("Year", Col.numeric [some 1995]),
    ("Flood_Impact_Score", Col.numeric [some 5]),
    ("Drought_Severity", Col.numeric [some 2]),
    ("Cyclone_Count", Col.numeric [some 1]),
    ("Forest_Cover_Percent", Col.numeric [some 20]),
    ("AQI", Col.numeric [some 150]),
    ("Renewable_Energy_Usage_Percent", Col.numeric [some 10]),
    ("Month", Col.numeric [some 1])]⟩

def T5 : Table :=
  ⟨[("Year", Col.numeric [some 1995]),
    ("District", Col.text [some "Dhaka"]),
    ("Flood_Impact_Score", Col.numeric [some 5]),
    ("Drought_Severity", Col.numeric [some 2]),
    ("Cyclone_Count", Col.numeric [some 1]),
    ("Forest_Cover_Percent", Col.numeric [some 20]),
    ("AQI", Col.numeric [some 150]),
    ("Renewable_Energy_Usage_Percent", Col.numeric [some 10])]⟩

def T5out : Table :=
  ⟨[("Year", Col.numeric [some 1995]),
    ("District", Col.text [some "Dhaka"]),
    ("Flood_Impact_Score", Col.numeric [some 5]),
    ("Drought_Severity", Col.numeric [some 2]),
    ("Cyclone_Count", Col.numeric [some 1]),
    ("Forest_Cover_Percent", Col.numeric [some 20]),
    ("AQI", Col.numeric [some 150]),
    ("Renewable_Energy_Usage_Percent", Col.numeric [some 10]),
    ("Decade", Col.numeric [some 1990]),
    ("Climate_Risk_Score", Col.numeric [some 2.5]),
    ("Environmental_Health_Index", Col.numeric [some (-0.04)])]⟩

def T6 : Table :=
  ⟨[("District", Col.text [some "Dhaka", some "Narnia", some "Khulna"]),
    ("Year", Col.numeric [some 1, some 2, some 3])]⟩

def T8 : Table :=
  ⟨[("Year", Col.numeric [some 1995, none]),
    ("District", Col.text [some "Dhaka", some "Khulna"])]⟩

/-! ### Generic list helpers -/

lemma getD_default_irrel {α : Type} {l : List α} {i : Nat} (h : i < l.length) (d d' : α) :
    l.getD i d = l.getD i d' := by
  simp [List.getD_eq_getElem?_getD, List.getElem?_eq_getElem h]

lemma getD_of_getElem? {α : Type} {l : List α} {i : Nat} {a : α} (d : α)
    (h : l[i]? = some a) : l.getD i d = a := by
  simp [List.getD_eq_getElem?_getD, h]

lemma range_map_getD {α : Type} (l : List α) (d : α) :
    (List.range l.length).map (fun i => l.getD i d) = l := by
  apply List.ext_getElem?
  intro n
  rw [List.getElem?_map]
  by_cases hn : n < l.length
  · rw [List.getElem?_range hn, List.getElem?_eq_getElem hn]
    simp [List.getD_eq_getElem?_getD, List.getElem?_eq_getElem hn]
  · rw [List.getElem?_eq_none (by simpa using le_of_not_lt hn),
      List.getElem?_eq_none (le_of_not_lt hn)]
    rfl

/-! ### Floor division -/

/-- `qfloor` is the mathematical floor: the script's `//` on numerics. -/
lemma qfloor_eq_floor (q : ℚ) : qfloor q = ⌊q⌋ := by
  rw [qfloor, Int.fdiv_eq_ediv _ (by exact_mod_cast Nat.zero_le q.den), Rat.floor_def]

lemma qfloor_cast_le (q : ℚ) : (qfloor q : ℚ) ≤ q := by
  rw [qfloor_eq_floor]; exact Int.floor_le q

lemma lt_qfloor_add_one (q : ℚ) : q < (qfloor q : ℚ) + 1 := by
  rw [qfloor_eq_floor]; exact_mod_cast Int.lt_floor_add_one q

lemma qfloor_nonneg {q : ℚ} (h : 0 ≤ q) : 0 ≤ qfloor q := by
  rw [qfloor_eq_floor]; exact Int.floor_nonneg.mpr h

lemma qfloor_mono {q q' : ℚ} (h : q ≤ q') : qfloor q ≤ qfloor q' := by
  rw [qfloor_eq_floor, qfloor_eq_floor]; exact Int.floor_mono h

/-! ### Sorted lists and quantiles -/

lemma sorted_getD_mono {s : List ℚ} (hs : List.Sorted (fun a b : ℚ => a ≤ b) s)
    {i j : Nat} (hij : i ≤ j) (hj : j < s.length) : s.getD i 0 ≤ s.getD j 0 := by
  have hi : i < s.length := Nat.lt_of_le_of_lt hij hj
  rcases Nat.lt_or_ge i j with hlt | hge
  · have h2 := hs.rel_get_of_lt (show (⟨i, hi⟩ : Fin s.length) < ⟨j, hj⟩ from hlt)
    simpa [List.getD_eq_getElem?_getD, List.getElem?_eq_getElem hi,
      List.getElem?_eq_getElem hj, List.get_eq_getElem] using h2
  · have hij2 : i = j := le_antisymm hij hge
    subst hij2
    exact le_refl _

lemma getD_succ_sub_nonneg {s : List ℚ} (hs : List.Sorted (fun a b : ℚ => a ≤ b) s)
    (i : Nat) : 0 ≤ s.getD (i + 1) (s.getD i 0) - s.getD i 0 := by
  by_cases hin : i + 1 < s.length
  · rw [getD_default_irrel hin (s.getD i 0) 0]
    have := sorted_getD_mono hs (Nat.le_succ i) hin
    linarith
  · rw [List.getD_eq_getElem?_getD s (i + 1), List.getElem?_eq_none (le_of_not_lt hin)]
    simp

lemma quantPos_mono {s : List ℚ} (hs : List.Sorted (fun a b : ℚ => a ≤ b) s)
    {h h' : ℚ} (h0 : 0 ≤ h) (hle : h ≤ h') (hub : h' ≤ (s.length : ℚ) - 1) :
    quantPos s h ≤ quantPos s h' := by
  have h0' : 0 ≤ h' := le_trans h0 hle
  have hic : (((qfloor h).toNat : ℕ) : ℚ) = ((qfloor h : ℤ) : ℚ) := by
    exact_mod_cast Int.toNat_of_nonneg (qfloor_nonneg h0)
  have hic' : (((qfloor h').toNat : ℕ) : ℚ) = ((qfloor h' : ℤ) : ℚ) := by
    exact_mod_cast Int.toNat_of_nonneg (qfloor_nonneg h0')
  have hfl : (((qfloor h).toNat : ℕ) : ℚ) ≤ h := by rw [hic]; exact qfloor_cast_le h
  have hfl1 : h < (((qfloor h).toNat : ℕ) : ℚ) + 1 := by rw [hic]; exact lt_qfloor_add_one h
  have hfl' : (((qfloor h').toNat : ℕ) : ℚ) ≤ h' := by rw [hic']; exact qfloor_cast_le h'
  have hii' : (qfloor h).toNat ≤ (qfloor h').toNat := Int.toNat_le_toNat (qfloor_mono hle)
  have hi'n : (qfloor h').toNat < s.length := by
    have h1 : (((qfloor h').toNat : ℕ) : ℚ) + 1 ≤ (s.length : ℚ) := by linarith
    exact_mod_cast h1
  rcases Nat.eq_or_lt_of_le hii' with heq | hlt
  · simp only [quantPos, ← heq]
    have hd := getD_succ_sub_nonneg hs (qfloor h).toNat
    have hmul := mul_le_mul_of_nonneg_right
      (show h - (((qfloor h).toNat : ℕ) : ℚ) ≤ h' - (((qfloor h).toNat : ℕ) : ℚ) by linarith) hd
    linarith
  · have hi1n : (qfloor h).toNat + 1 ≤ (qfloor h').toNat := hlt
    have hin : (qfloor h).toNat + 1 < s.length := Nat.lt_of_le_of_lt hi1n hi'n
    have hA : quantPos s h ≤ s.getD ((qfloor h).toNat + 1) 0 := by
      simp only [quantPos]
      rw [getD_default_irrel hin (s.getD (qfloor h).toNat 0) 0]
      have hd : s.getD (qfloor h).toNat 0 ≤ s.getD ((qfloor h).toNat + 1) 0 :=
        sorted_getD_mono hs (Nat.le_succ _) hin
      have hγ : h - (((qfloor h).toNat : ℕ) : ℚ) ≤ 1 := by linarith
      have hmul := mul_le_mul_of_nonneg_right hγ (show (0:ℚ) ≤ s.getD ((qfloor h).toNat + 1) 0 - s.getD (qfloor h).toNat 0 by linarith)
      linarith
    have hB : s.getD ((qfloor h).toNat + 1) 0 ≤ s.getD (qfloor h').toNat 0 :=
      sorted_getD_mono hs hi1n hi'n
    have hC : s.getD (qfloor h').toNat 0 ≤ quantPos s h' := by
      simp only [quantPos]
      have hd := getD_succ_sub_nonneg hs (qfloor h').toNat
      have hγ : 0 ≤ h' - (((qfloor h').toNat : ℕ) : ℚ) := by linarith
      have hmul := mul_nonneg hγ hd
      linarith
    linarith

lemma quantileQ_le {cells : List (Option ℚ)} {p p' : ℚ} (hp0 : 0 ≤ p) (hpp : p ≤ p')
    (hp1 : p' ≤ 1) {q q' : ℚ} (hq : quantileQ cells p = some q)
    (hq' : quantileQ cells p' = some q') : q ≤ q' := by
  unfold quantileQ at hq hq'
  by_cases hlen : (sortedPresents cells).length = 0
  · simp [hlen] at hq
  · simp only [hlen, if_false] at hq hq'
    have hn1 : 1 ≤ (sortedPresents cells).length := Nat.one_le_iff_ne_zero.mpr hlen
    have hnq : (0:ℚ) ≤ ((sortedPresents cells).length : ℚ) - 1 := by
      have : (1:ℚ) ≤ ((sortedPresents cells).length : ℚ) := by exact_mod_cast hn1
      linarith
    have hs : List.Sorted (fun a b : ℚ => a ≤ b) (sortedPresents cells) :=
      List.sorted_insertionSort _ _
    have hq2 := Option.some.inj hq
    have hq2' := Option.some.inj hq'
    rw [← hq2, ← hq2']
    apply quantPos_mono hs
    · exact mul_nonneg hp0 hnq
    · exact mul_le_mul_of_nonneg_right hpp hnq
    · have := mul_le_mul_of_nonneg_right hp1 hnq
      linarith

/-! ### Outlier clipping lemmas -/

lemma clamp_bounds {lo hi : ℚ} (v : ℚ) (hlh : lo ≤ hi) :
    lo ≤ clampHigh hi (clampLow lo v) ∧ clampHigh hi (clampLow lo v) ≤ hi := by
  unfold clampLow clampHigh
  split_ifs <;> constructor <;> linarith

lemma clipNum_mem_bounds {cells : List (Option ℚ)} {q1 q3 : ℚ}
    (h1 : quantileQ cells (1/4) = some q1) (h3 : quantileQ cells (3/4) = some q3) :
    ∀ v ∈ (clipNum cells).filterMap id,
      q1 - 3/2 * (q3 - q1) ≤ v ∧ v ≤ q3 + 3/2 * (q3 - q1) := by
  have h13 : q1 ≤ q3 := quantileQ_le (by norm_num) (by norm_num) (by norm_num) h1 h3
  intro v hv
  unfold clipNum at hv
  rw [h1, h3] at hv
  simp only [List.map_map, List.mem_filterMap, List.mem_map, id_eq, Function.comp] at hv
  obtain ⟨a, ⟨u, hu, rfl⟩, hav⟩ := hv
  rcases u with _ | w
  · exact absurd hav (by simp)
  · have hv2 := Option.some.inj hav
    rw [← hv2]
    exact clamp_bounds w (by linarith)

lemma clipNum_length (cells : List (Option ℚ)) : (clipNum cells).length = cells.length := by
  unfold clipNum
  rcases quantileQ cells (1/4) with _ | q1 <;> rcases quantileQ cells (3/4) with _ | q3 <;> simp

lemma clipNum_countP_isNone (cells : List (Option ℚ)) :
    (clipNum cells).countP (fun x => x.isNone) = cells.countP (fun x => x.isNone) := by
  unfold clipNum
  rcases quantileQ cells (1/4) with _ | q1 <;> rcases quantileQ cells (3/4) with _ | q3 <;>
    try rfl
  simp only [List.map_map, List.countP_map]
  apply List.countP_congr
  intro a _
  rcases a with _ | w <;> rfl

lemma clipCol_length (c : Col) : (clipCol c).length = c.length := by
  rcases c with cells | cells <;> simp [clipCol, Col.length, clipNum_length]

lemma clipCol_missingCount (c : Col) : (clipCol c).missingCount = c.missingCount := by
  rcases c with cells | cells <;> simp [clipCol, Col.missingCount, clipNum_countP_isNone]

/-! ### Missing-value filling lemmas -/

lemma length_sortedPresents (cells : List (Option ℚ)) :
    (sortedPresents cells).length = (presents cells).length :=
  (List.perm_insertionSort _ _).length_eq

lemma medianQ_isSome {cells : List (Option ℚ)} (h : 0 < (presents cells).length) :
    ∃ m, medianQ cells = some m := by
  unfold medianQ
  have hlen : ¬ (sortedPresents cells).length = 0 := by
    rw [length_sortedPresents]
    omega
  rw [if_neg hlen]
  by_cases hpar : (sortedPresents cells).length % 2 = 1
  · rw [if_pos hpar]
    exact ⟨_, rfl⟩
  · rw [if_neg hpar]
    exact ⟨_, rfl⟩

lemma foldr_max_mem : ∀ (l : List Nat), l ≠ [] → l.foldr max 0 ∈ l := by
  intro l
  induction l with
  | nil => intro h; exact absurd rfl h
  | cons a t ih =>
    intro _
    rcases eq_or_ne t [] with rfl | ht
    · simp
    · have hmem := ih ht
      simp only [List.foldr_cons]
      rcases Nat.le_total a (t.foldr max 0) with hle | hle
      · rw [Nat.max_eq_right hle]
        exact List.mem_cons_of_mem _ hmem
      · rw [Nat.max_eq_left hle]
        exact List.mem_cons_self _ _

lemma le_foldr_max {a : Nat} : ∀ {l : List Nat}, a ∈ l → a ≤ l.foldr max 0 := by
  intro l
  induction l with
  | nil => intro h; exact absurd h (List.not_mem_nil a)
  | cons b t ih =>
    intro h
    rcases List.mem_cons.mp h with rfl | h2
    · exact Nat.le_max_left _ _
    · exact le_trans (ih h2) (Nat.le_max_right _ _)

lemma strLe_refl (a : String) : strLe a a := le_refl _

/-- The head of the pandas mode list is a most frequent value and the least
such value in lexicographic order. -/
lemma seriesMode_head_spec {l : List String} (hl : l ≠ []) :
    ∃ m, (seriesMode l).head? = some m ∧ m ∈ l ∧
      (∀ w ∈ l, l.count w ≤ l.count m) ∧
      (∀ w ∈ l, l.count w = l.count m → strLe m w) := by
  have hperm : (List.insertionSort strLe l.dedup).Perm l.dedup := List.perm_insertionSort _ _
  have hmem_u : ∀ v, v ∈ List.insertionSort strLe l.dedup ↔ v ∈ l := by
    intro v
    rw [hperm.mem_iff, List.mem_dedup]
  have hsorted : List.Sorted strLe (List.insertionSort strLe l.dedup) :=
    List.sorted_insertionSort _ _
  have hune : List.insertionSort strLe l.dedup ≠ [] := by
    obtain ⟨x, hx⟩ := List.exists_mem_of_ne_nil l hl
    intro hnil
    have := (hmem_u x).mpr hx
    rw [hnil] at this
    exact List.not_mem_nil x this
  set u := List.insertionSort strLe l.dedup with hu
  set M := (u.map (fun v => l.count v)).foldr max 0 with hM
  have hmapne : u.map (fun v => l.count v) ≠ [] := by
    intro hnil
    exact hune (List.map_eq_nil_iff.mp hnil)
  have hMmem : M ∈ u.map (fun v => l.count v) := foldr_max_mem _ hmapne
  obtain ⟨v0, hv0u, hv0c⟩ := List.mem_map.mp hMmem
  have hfilterne : v0 ∈ u.filter (fun v => l.count v == M) := by
    rw [List.mem_filter]
    exact ⟨hv0u, by simp [hv0c]⟩
  have hmode : seriesMode l = u.filter (fun v => l.count v == M) := rfl
  rcases hf : u.filter (fun v => l.count v == M) with _ | ⟨m, t⟩
  · rw [hf] at hfilterne
    exact absurd hfilterne (List.not_mem_nil v0)
  · have hm_mem : m ∈ u.filter (fun v => l.count v == M) := by
      rw [hf]
      exact List.mem_cons_self _ _
    obtain ⟨hmu, hmc⟩ := List.mem_filter.mp hm_mem
    have hmcM : l.count m = M := by simpa using hmc
    refine ⟨m, ?_, (hmem_u m).mp hmu, ?_, ?_⟩
    · rw [hmode, hf]
      rfl
    · intro w hw
      have hwu : w ∈ u := (hmem_u w).mpr hw
      have : l.count w ∈ u.map (fun v => l.count v) := List.mem_map.mpr ⟨w, hwu, rfl⟩
      rw [hmcM]
      exact le_foldr_max this
    · intro w hw hcount
      have hwu : w ∈ u := (hmem_u w).mpr hw
      have hwf : w ∈ u.filter (fun v => l.count v == M) := by
        rw [List.mem_filter]
        refine ⟨hwu, by simp [hcount, hmcM]⟩
      rw [hf] at hwf
      have hpair : List.Pairwise strLe (m :: t) := by
        rw [← hf]
        exact hsorted.filter _
      rcases List.mem_cons.mp hwf with rfl | hwt
      · exact strLe_refl w
      · exact (List.pairwise_cons.mp hpair).1 w hwt

/-! ### fillCol and fillCols lemmas -/

lemma fillCol_numeric_eq (cells : List (Option ℚ)) :
    fillCol (.numeric cells) =
      .ok (.numeric (if cells.countP (fun x => x.isNone) = 0 then cells
        else cells.map (fillCell (medianQ cells)))) := by
  unfold fillCol
  by_cases h0 : cells.countP (fun x => x.isNone) = 0 <;> simp [h0]

lemma fillCol_text_mode {cells : List (Option String)} {c' : Col}
    (h0 : ¬ cells.countP (fun x => x.isNone) = 0) (h : fillCol (.text cells) = .ok c') :
    ∃ m, (seriesMode (cells.filterMap id)).head? = some m ∧
      c' = .text (cells.map (fillCell (some m))) := by
  simp only [fillCol] at h
  rw [if_neg h0] at h
  rcases hm : (seriesMode (cells.filterMap id)).head? with _ | m <;> rw [hm] at h
  · exact Except.noConfusion h
  · exact ⟨m, rfl, (Except.ok.inj h).symm⟩

lemma fillCol_length {c c' : Col} (h : fillCol c = .ok c') : c'.length = c.length := by
  rcases c with cells | cells
  · rw [fillCol_numeric_eq] at h
    have h2 := Except.ok.inj h
    subst h2
    by_cases h0 : cells.countP (fun x => x.isNone) = 0 <;> simp [h0, Col.length]
  · simp only [fillCol] at h
    by_cases h0 : cells.countP (fun x => x.isNone) = 0
    · rw [if_pos h0] at h
      have h2 := Except.ok.inj h
      subst h2
      rfl
    · obtain ⟨m, _, h2⟩ := fillCol_text_mode h0 h
      subst h2
      simp [Col.length]

lemma fillCol_no_missing {c c' : Col} (hp : 0 < c.presentCount) (h : fillCol c = .ok c') :
    c'.missingCount = 0 := by
  rcases c with cells | cells
  · rw [fillCol_numeric_eq] at h
    have h2 := Except.ok.inj h
    subst h2
    by_cases h0 : cells.countP (fun x => x.isNone) = 0
    · simpa [Col.missingCount, h0] using h0
    · obtain ⟨m, hm⟩ := medianQ_isSome (by simpa [Col.presentCount, presents] using hp)
      simp only [h0, if_neg, Col.missingCount, if_false]
      rw [List.countP_eq_zero]
      intro a ha
      obtain ⟨x, hx, rfl⟩ := List.mem_map.mp ha
      rcases x with _ | w
      · simp [fillCell, hm]
      · simp [fillCell]
  · simp only [fillCol] at h
    by_cases h0 : cells.countP (fun x => x.isNone) = 0
    · rw [if_pos h0] at h
      have h2 := Except.ok.inj h
      subst h2
      simpa [Col.missingCount] using h0
    · obtain ⟨m, _, h2⟩ := fillCol_text_mode h0 h
      subst h2
      simp only [Col.missingCount]
      rw [List.countP_eq_zero]
      intro a ha
      obtain ⟨x, hx, rfl⟩ := List.mem_map.mp ha
      rcases x with _ | w <;> simp [fillCell]

lemma fillCol_text_total {cells : List (Option String)}
    (hp : ¬ cells.countP (fun x => x.isNone) = 0 → 0 < (cells.filterMap id).length) :
    ∃ c', fillCol (.text cells) = .ok c' := by
  simp only [fillCol]
  by_cases h0 : cells.countP (fun x => x.isNone) = 0
  · rw [if_pos h0]
    exact ⟨_, rfl⟩
  · rw [if_neg h0]
    have hl : cells.filterMap id ≠ [] := by
      have := hp h0
      intro hnil
      rw [hnil] at this
      exact absurd this (by simp)
    obtain ⟨m, hm, _⟩ := seriesMode_head_spec hl
    rw [hm]
    exact ⟨_, rfl⟩

lemma fillCols_spec : ∀ {ps ps' : List (String × Col)}, fillCols ps = .ok ps' →
    ps'.length = ps.length ∧
      ∀ (i : Nat) (n : String) (c : Col), ps[i]? = some (n, c) →
        ∃ c', fillCol c = .ok c' ∧ ps'[i]? = some (n, c') := by
  intro ps
  induction ps with
  | nil =>
    intro ps' h
    unfold fillCols at h
    have h2 := Except.ok.inj h
    subst h2
    refine ⟨rfl, ?_⟩
    intro i n c h2
    simp at h2
  | cons p t ih =>
    intro ps' h
    unfold fillCols at h
    rcases hc : fillCol p.2 with e | c2 <;> simp only [hc] at h
    · exact Except.noConfusion h
    · rcases ht : fillCols t with e | t2 <;> simp only [ht] at h
      · exact Except.noConfusion h
      · have h2 := Except.ok.inj h
        subst h2
        obtain ⟨hlen, hpt⟩ := ih ht
        refine ⟨by simp [hlen], ?_⟩
        intro i n c hget
        cases i with
        | zero =>
          simp only [List.getElem?_cons_zero] at hget ⊢
          have hp2 := Option.some.inj hget
          subst hp2
          exact ⟨c2, hc, rfl⟩
        | succ j =>
          simp only [List.getElem?_cons_succ] at hget ⊢
          exact hpt j n c hget

lemma fillTable_ok {df mid : Table} (h : fillTable df = .ok mid) :
    fillCols df.cols = .ok mid.cols := by
  unfold fillTable at h
  rcases hc : fillCols df.cols with e | cs <;> rw [hc] at h
  · exact Except.noConfusion h
  · have h2 := Except.ok.inj h
    subst h2
    rfl

lemma clean_data_ok {df out : Table} (h : clean_data df = .ok out) :
    ∃ mid, fillTable df = .ok mid ∧ out = clipTable mid := by
  unfold clean_data at h
  rcases hf : fillTable df with e | mid <;> rw [hf] at h
  · exact Except.noConfusion h
  · exact ⟨mid, rfl, (Except.ok.inj h).symm⟩

lemma fillCols_total (ps : List (String × Col))
    (h : ∀ p ∈ ps, p.2.isNumeric = true ∨ p.2.missingCount = 0 ∨ 0 < p.2.presentCount) :
    ∃ cs, fillCols ps = .ok cs := by
  induction ps with
  | nil => exact ⟨[], rfl⟩
  | cons p t ih =>
    have hp : ∃ c', fillCol p.2 = .ok c' := by
      rcases hcol : p.2 with cells | cells
      · rw [fillCol_numeric_eq]
        exact ⟨_, rfl⟩
      · apply fillCol_text_total
        intro h0
        rcases h p (List.mem_cons_self _ _) with hnum | hmc | hpc
        · rw [hcol] at hnum
          exact absurd hnum (by simp [Col.isNumeric])
        · rw [hcol] at hmc
          exact absurd hmc (by simpa [Col.missingCount] using h0)
        · rw [hcol] at hpc
          simpa [Col.presentCount] using hpc
    obtain ⟨c', hc⟩ := hp
    obtain ⟨cs, hcs⟩ := ih (fun q hq => h q (List.mem_cons_of_mem _ hq))
    exact ⟨(p.1, c') :: cs, by simp [fillCols, hc, hcs]⟩

/-! ### Claims about the Cleaner -/

/-- Claim C2 is false as stated: a numeric column whose cells are all
missing has a NaN median, `fillna(NaN)` fills nothing, and the returned
table still has a missing value in that column. -/
theorem claim_C2_counterexample :
    clean_data ⟨[("A", Col.numeric [none])]⟩ = .ok ⟨[("A", Col.numeric [none])]⟩ ∧
      Col.missingCount (Col.numeric [none]) = 1 := by
  constructor
  · decide
  · rfl

/-- Claim C2 (amended): whenever `clean_data` returns a table, each input
column maps to an output column of the same name; during the fill stage
every missing numeric cell is replaced by the column's median over its
non-missing values and every missing text cell by the column's
most-frequent non-missing value (`mode()[0]`), so every column that has at
least one non-missing value has zero missing values in the output; an
all-missing numeric column is returned with its missing cells intact. -/
theorem claim_C2 (df out : Table) (h : clean_data df = .ok out) :
    ∃ mid, fillTable df = .ok mid ∧ out = clipTable mid ∧
      ∀ (i : Nat) (n : String) (c : Col), df.cols[i]? = some (n, c) →
        ∃ c', fillCol c = .ok c' ∧ mid.cols[i]? = some (n, c') ∧
          out.cols[i]? = some (n, clipCol c') ∧
          (0 < c.presentCount → c'.missingCount = 0 ∧ (clipCol c').missingCount = 0) ∧
          (∀ cells, c = Col.numeric cells →
            c' = Col.numeric (if cells.countP (fun x => x.isNone) = 0 then cells
              else cells.map (fillCell (medianQ cells)))) ∧
          (∀ cells, c = Col.text cells → ¬ cells.countP (fun x => x.isNone) = 0 →
            ∃ m, (seriesMode (cells.filterMap id)).head? = some m ∧
              c' = Col.text (cells.map (fillCell (some m)))) := by
  obtain ⟨mid, hf, hout⟩ := clean_data_ok h
  obtain ⟨hlen, hpt⟩ := fillCols_spec (fillTable_ok hf)
  refine ⟨mid, hf, hout, ?_⟩
  intro i n c hc
  obtain ⟨c', hfc, hmc⟩ := hpt i n c hc
  refine ⟨c', hfc, hmc, ?_, ?_, ?_, ?_⟩
  · subst hout
    simp [clipTable, List.getElem?_map, hmc]
  · intro hp
    exact ⟨fillCol_no_missing hp hfc, by rw [clipCol_missingCount]; exact fillCol_no_missing hp hfc⟩
  · intro cells hcc
    subst hcc
    rw [fillCol_numeric_eq] at hfc
    exact (Except.ok.inj hfc).symm
  · intro cells hcc h0
    subst hcc
    exact fillCol_text_mode h0 hfc

/-- Witness for the amended C2 at a concrete table with one numeric and
one text column, each with a missing cell. -/
theorem claim_C2_witness :
    clean_data T2w = Except.ok T2wOut ∧
      ∃ c', fillCol (Col.numeric [some 1, none, some 3]) = Except.ok c' ∧
        c'.missingCount = 0 := by
  refine ⟨by decide, ?_⟩
  obtain ⟨mid, hf, hout, hpt⟩ := claim_C2 T2w T2wOut (by decide)
  obtain ⟨c', hfc, hmc, houtc, hmiss, hnum, htext⟩ :=
    hpt 0 "N" (Col.numeric [some 1, none, some 3]) (by decide)
  exact ⟨c', hfc, (hmiss (by decide)).1⟩

/-- Claim C3 is false as stated: an all-missing categorical (object) column
makes `mode()` an empty Series and `mode()[0]` raises `KeyError: 0`. -/
theorem claim_C3_counterexample :
    clean_data ⟨[("A", Col.text [none])]⟩ = .error "KeyError: 0" := by decide

/-- Claim C3 (amended): `clean_data` raises no error when the input
contains a zero-variance column or an all-missing numeric column — it
completes whenever every column is numeric, or has no missing cell, or has
at least one non-missing cell; only an all-missing text column raises. -/
theorem claim_C3 (df : Table)
    (h : ∀ p ∈ df.cols, p.2.isNumeric = true ∨ p.2.missingCount = 0 ∨ 0 < p.2.presentCount) :
    ∃ out, clean_data df = .ok out := by
  obtain ⟨cs, hcs⟩ := fillCols_total df.cols h
  exact ⟨clipTable ⟨cs⟩, by simp [clean_data, fillTable, hcs]⟩

/-- Witness for the amended C3: a zero-variance numeric column together
with an all-missing numeric column; the call completes and returns the
table unchanged. -/
theorem claim_C3_witness :
    (∃ out, clean_data ⟨[("Z", Col.numeric [some 5, some 5]),
      ("M", Col.numeric [none, none])]⟩ = Except.ok out) ∧
    clean_data ⟨[("Z", Col.numeric [some 5, some 5]), ("M", Col.numeric [none, none])]⟩ =
      Except.ok ⟨[("Z", Col.numeric [some 5, some 5]), ("M", Col.numeric [none, none])]⟩ := by
  constructor
  · exact claim_C3 _ (by decide)
  · decide

/-- Claim C4: after `clean_data`, every non-missing value of each numeric
column lies within `[Q1 - 1.5*IQR, Q3 + 1.5*IQR]`, where Q1 and Q3 are the
linear-interpolation quartiles of the column after missing-value filling. -/
theorem claim_C4 (df out : Table) (h : clean_data df = .ok out) :
    ∃ mid, fillTable df = .ok mid ∧ out = clipTable mid ∧
      ∀ (i : Nat) (n : String) (cells : List (Option ℚ)),
        mid.cols[i]? = some (n, Col.numeric cells) →
        out.cols[i]? = some (n, Col.numeric (clipNum cells)) ∧
        ∀ q1 q3, quantileQ cells (1/4) = some q1 → quantileQ cells (3/4) = some q3 →
          ∀ v ∈ (clipNum cells).filterMap id,
            q1 - 3/2 * (q3 - q1) ≤ v ∧ v ≤ q3 + 3/2 * (q3 - q1) := by
  obtain ⟨mid, hf, hout⟩ := clean_data_ok h
  refine ⟨mid, hf, hout, ?_⟩
  intro i n cells hc
  constructor
  · subst hout
    simp [clipTable, List.getElem?_map, hc, clipCol]
  · intro q1 q3 h1 h3 v hv
    exact clipNum_mem_bounds h1 h3 v hv

/-- Witness for C4 at the spec's concrete column [1,2,3,4,100]:
Q1 = 2, Q3 = 4, bounds [-1, 7], and 100 clips to 7. -/
theorem claim_C4_witness :
    clean_data T4w = Except.ok T4wOut ∧
      quantileQ c4cells (1/4) = some 2 ∧ quantileQ c4cells (3/4) = some 4 ∧
      clipNum c4cells = [some 1, some 2, some 3, some 4, some 7] ∧
      ∀ v ∈ (clipNum c4cells).filterMap id, (-1 : ℚ) ≤ v ∧ v ≤ 7 := by
  refine ⟨by decide, by decide, by decide, by decide, ?_⟩
  obtain ⟨mid, hf, hout, hpt⟩ := claim_C4 T4w T4wOut (by decide)
  have hmid : mid = T4w := by
    have h5 : fillTable T4w = Except.ok T4w := by decide
    rw [h5] at hf
    exact (Except.ok.inj hf).symm
  subst hmid
  have h2 := (hpt 0 "A" c4cells (by decide)).2 2 4 (by decide) (by decide)
  intro v hv
  have h3 := h2 v hv
  constructor
  · have := h3.1
    norm_num at this
    exact this
  · have := h3.2
    norm_num at this
    exact this

/-- Claim C10: when a text column with missing cells is filled, the fill
value is the head of the sorted mode list — a most frequent non-missing
value, and lexicographically least among the tied most frequent values. -/
theorem claim_C10 (df out : Table) (h : clean_data df = .ok out)
    (i : Nat) (n : String) (cells : List (Option String))
    (hc : df.cols[i]? = some (n, Col.text cells))
    (hmiss : ¬ cells.countP (fun x => x.isNone) = 0) :
    ∃ m, (seriesMode (cells.filterMap id)).head? = some m ∧
      out.cols[i]? = some (n, Col.text (cells.map (fillCell (some m)))) ∧
      m ∈ cells.filterMap id ∧
      (∀ w ∈ cells.filterMap id,
        (cells.filterMap id).count w ≤ (cells.filterMap id).count m) ∧
      (∀ w ∈ cells.filterMap id,
        (cells.filterMap id).count w = (cells.filterMap id).count m → strLe m w) := by
  obtain ⟨mid, hf, hout⟩ := clean_data_ok h
  obtain ⟨hlen, hpt⟩ := fillCols_spec (fillTable_ok hf)
  obtain ⟨c', hfc, hmc⟩ := hpt i n _ hc
  obtain ⟨m, hm, hceq⟩ := fillCol_text_mode hmiss hfc
  have hl : cells.filterMap id ≠ [] := by
    intro hnil
    rw [hnil] at hm
    simp [seriesMode] at hm
  obtain ⟨m2, hm2, hmem, hmax, htie⟩ := seriesMode_head_spec hl
  have hmm : m2 = m := Option.some.inj (hm2.symm.trans hm)
  subst hmm
  refine ⟨m2, hm, ?_, hmem, hmax, htie⟩
  subst hout hceq
  simp [clipTable, List.getElem?_map, hmc, clipCol]

/-- Witness for C10 at a column where "a" and "b" tie with multiplicity 2:
the fill value is "a", the lexicographically smaller tied mode. -/
theorem claim_C10_witness :
    clean_data T10 = Except.ok T10out ∧
      ∃ m, (seriesMode ["b", "a", "a", "b"]).head? = some m ∧
        T10out.cols[0]? = some ("T",
          Col.text ([some "b", some "a", none, some "a", some "b"].map (fillCell (some m)))) := by
  refine ⟨by decide, ?_⟩
  obtain ⟨m, hm, hout, _⟩ :=
    claim_C10 T10 T10out (by decide) 0 "T"
      [some "b", some "a", none, some "a", some "b"] (by decide) (by decide)
  exact ⟨m, hm, hout⟩

/-! ### Column lookup and assignment lemmas -/

lemma getCol?_mem {t : Table} {name : String} {c : Col} (h : t.getCol? name = some c) :
    (name, c) ∈ t.cols := by
  unfold Table.getCol? at h
  rcases hf : t.cols.find? (fun p => p.1 == name) with _ | q <;> rw [hf] at h
  · exact Option.noConfusion h
  · have hq := List.mem_of_find?_eq_some hf
    have hpred := List.find?_some hf
    have h2 := Option.some.inj h
    have h1 : q.1 = name := by simpa using hpred
    have h3 : q = (name, c) := by
      rw [← h1, ← h2]
    rw [← h3]
    exact hq

lemma getNumCells_ok {t : Table} {name : String} {cells : List (Option ℚ)}
    (h : getNumCells t name = .ok cells) : t.getCol? name = some (.numeric cells) := by
  unfold getNumCells at h
  rcases hg : t.getCol? name with _ | c <;> rw [hg] at h
  · exact Except.noConfusion h
  · rcases c with cs | cs
    · have := Except.ok.inj h
      subst this
      rfl
    · exact Except.noConfusion h

lemma find?_map_replace (name : String) (c : Col) :
    ∀ (l : List (String × Col)), l.any (fun p => p.1 == name) = true →
      (l.map (fun p => if p.1 == name then (name, c) else p)).find? (fun p => p.1 == name) =
        some (name, c) := by
  intro l
  induction l with
  | nil => intro h; simp at h
  | cons p t ih =>
    intro h
    by_cases hp : (p.1 == name) = true
    · simp only [List.map_cons, if_pos hp]
      rw [List.find?_cons_of_pos _ (by simp)]
    · simp only [List.map_cons, if_neg hp]
      rw [List.find?_cons_of_neg _ (by simpa using hp)]
      apply ih
      simpa [hp] using h

lemma getCol?_setCol_self (t : Table) (name : String) (c : Col) :
    (t.setCol name c).getCol? name = some c := by
  unfold Table.setCol
  by_cases hany : t.cols.any (fun p => p.1 == name) = true
  · rw [if_pos hany]
    unfold Table.getCol?
    rw [find?_map_replace name c t.cols hany]
    rfl
  · rw [if_neg hany]
    unfold Table.getCol?
    rw [List.find?_append]
    have hnone : t.cols.find? (fun p => p.1 == name) = none := by
      rw [List.find?_eq_none]
      intro x hx
      exact List.any_eq_false.mp (Bool.not_eq_true _ ▸ hany) x hx
    rw [hnone]
    rw [List.find?_cons_of_pos _ (by simp)]
    rfl

lemma getCol?_setCol_ne (t : Table) {name n2 : String} (c : Col) (hne : n2 ≠ name) :
    (t.setCol name c).getCol? n2 = t.getCol? n2 := by
  have hpred : ((name, c).1 == n2) = false := by
    simp
    exact fun h => hne h.symm
  unfold Table.setCol
  by_cases hany : t.cols.any (fun p => p.1 == name) = true
  · rw [if_pos hany]
    unfold Table.getCol?
    congr 1
    induction t.cols with
    | nil => rfl
    | cons p rest ih =>
      by_cases hp : (p.1 == name) = true
      · simp only [List.map_cons, if_pos hp]
        have hp1 : p.1 = name := by simpa using hp
        have hfail : (p.1 == n2) = false := by
          rw [hp1]
          simpa using hpred
        rw [List.find?_cons_of_neg _ (by simpa using hpred),
          List.find?_cons_of_neg _ (by simpa using hfail)]
        exact ih
      · simp only [List.map_cons, if_neg hp]
        by_cases hp2 : (p.1 == n2) = true
        · rw [List.find?_cons_of_pos _ (by exact hp2), List.find?_cons_of_pos _ (by exact hp2)]
        · rw [List.find?_cons_of_neg _ (by simpa using hp2),
            List.find?_cons_of_neg _ (by simpa using hp2)]
          exact ih
  · rw [if_neg hany]
    unfold Table.getCol?
    rw [List.find?_append]
    have h2 : [(name, c)].find? (fun p => p.1 == n2) = none := by
      rw [List.find?_cons_of_neg _ (by simpa using hpred)]
      rfl
    rw [h2]
    rw [Option.or_none]

/-! ### Structure of a successful feature_engineering run -/

/-- The seasonal `pd.cut` call of the script always raises: the label list
repeats "Winter" and `ordered` is left at its default `True` (a text Month
column fails even earlier, inside `searchsorted`). -/
lemma pd_cut_always_fails (mc : Col) :
    ∃ e, pd_cut mc [0, 2, 5, 8, 11, 12]
      ["Winter", "Spring", "Summer", "Autumn", "Winter"] true true = .error e := by
  rcases mc with cells | cells
  · refine ⟨"ValueError: labels must be unique if ordered=True", ?_⟩
    simp only [pd_cut]
    rw [if_pos (by decide)]
  · exact ⟨_, rfl⟩

lemma fe_ok_struct {df out : Table} (h : feature_engineering df = .ok out) :
    ∃ (year fl dr cy fo aq ren : List (Option ℚ)),
      getNumCells df "Year" = .ok year ∧
      getNumCells (df.setCol "Decade" (decadeCol year)) "Flood_Impact_Score" = .ok fl ∧
      getNumCells (df.setCol "Decade" (decadeCol year)) "Drought_Severity" = .ok dr ∧
      getNumCells (df.setCol "Decade" (decadeCol year)) "Cyclone_Count" = .ok cy ∧
      getNumCells ((df.setCol "Decade" (decadeCol year)).setCol "Climate_Risk_Score"
        (crsCol fl dr cy)) "Forest_Cover_Percent" = .ok fo ∧
      getNumCells ((df.setCol "Decade" (decadeCol year)).setCol "Climate_Risk_Score"
        (crsCol fl dr cy)) "AQI" = .ok aq ∧
      getNumCells ((df.setCol "Decade" (decadeCol year)).setCol "Climate_Risk_Score"
        (crsCol fl dr cy)) "Renewable_Energy_Usage_Percent" = .ok ren ∧
      (((df.setCol "Decade" (decadeCol year)).setCol "Climate_Risk_Score"
        (crsCol fl dr cy)).setCol "Environmental_Health_Index"
          (ehiCol fo aq ren)).getCol? "Month" = none ∧
      out = ((df.setCol "Decade" (decadeCol year)).setCol "Climate_Risk_Score"
        (crsCol fl dr cy)).setCol "Environmental_Health_Index" (ehiCol fo aq ren) := by
  unfold feature_engineering at h
  rcases hy : getNumCells df "Year" with e | year <;> simp only [hy] at h
  · exact Except.noConfusion h
  rcases hfl : getNumCells (df.setCol "Decade" (decadeCol year)) "Flood_Impact_Score"
    with e | fl <;> simp only [hfl] at h
  · exact Except.noConfusion h
  rcases hdr : getNumCells (df.setCol "Decade" (decadeCol year)) "Drought_Severity"
    with e | dr <;> simp only [hdr] at h
  · exact Except.noConfusion h
  rcases hcy : getNumCells (df.setCol "Decade" (decadeCol year)) "Cyclone_Count"
    with e | cy <;> simp only [hcy] at h
  · exact Except.noConfusion h
  rcases hfo : getNumCells ((df.setCol "Decade" (decadeCol year)).setCol "Climate_Risk_Score"
    (crsCol fl dr cy)) "Forest_Cover_Percent" with e | fo <;> simp only [hfo] at h
  · exact Except.noConfusion h
  rcases haq : getNumCells ((df.setCol "Decade" (decadeCol year)).setCol "Climate_Risk_Score"
    (crsCol fl dr cy)) "AQI" with e | aq <;> simp only [haq] at h
  · exact Except.noConfusion h
  rcases hren : getNumCells ((df.setCol "Decade" (decadeCol year)).setCol "Climate_Risk_Score"
    (crsCol fl dr cy)) "Renewable_Energy_Usage_Percent" with e | ren <;> simp only [hren] at h
  · exact Except.noConfusion h
  rcases hmon : (((df.setCol "Decade" (decadeCol year)).setCol "Climate_Risk_Score"
    (crsCol fl dr cy)).setCol "Environmental_Health_Index"
      (ehiCol fo aq ren)).getCol? "Month" with _ | mc <;> simp only [hmon] at h
  · exact ⟨year, fl, dr, cy, fo, aq, ren, rfl, hfl, hdr, hcy, hfo, haq, hren, hmon,
      (Except.ok.inj h).symm⟩
  · obtain ⟨e, he⟩ := pd_cut_always_fails mc
    simp only [he] at h
    exact Except.noConfusion h

/-! ### Row-count preservation lemmas -/

lemma nrows_mk_nil : (⟨[]⟩ : Table).nrows = 0 := rfl

lemma nrows_mk_cons (p : String × Col) (r : List (String × Col)) :
    (⟨p :: r⟩ : Table).nrows = p.2.length := rfl

lemma nrows_cons {t : Table} {p : String × Col} {r : List (String × Col)}
    (hc : t.cols = p :: r) : t.nrows = p.2.length := by
  unfold Table.nrows
  rw [hc]
  rfl

lemma nrows_nil {t : Table} (hc : t.cols = []) : t.nrows = 0 := by
  unfold Table.nrows
  rw [hc]
  rfl

lemma fill_length_names {ps ps' : List (String × Col)} (h : fillCols ps = .ok ps') :
    ps'.map (fun p => (p.1, p.2.length)) = ps.map (fun p => (p.1, p.2.length)) := by
  obtain ⟨hlen, hpt⟩ := fillCols_spec h
  apply List.ext_getElem?
  intro k
  rw [List.getElem?_map, List.getElem?_map]
  rcases hk : ps[k]? with _ | p
  · have hk' : ps'[k]? = none := by
      rw [List.getElem?_eq_none]
      rw [hlen]
      exact List.getElem?_eq_none_iff.mp hk
    rw [hk']
  · obtain ⟨c', hfc, hk'⟩ := hpt k p.1 p.2 (by rw [hk])
    rw [hk']
    simp [fillCol_length hfc]

lemma clipTable_length_names (t : Table) :
    (clipTable t).cols.map (fun p => (p.1, p.2.length)) =
      t.cols.map (fun p => (p.1, p.2.length)) := by
  unfold clipTable
  rw [List.map_map]
  apply List.map_congr_left
  intro p _
  simp [clipCol_length]

lemma nrows_of_length_names {t t' : Table}
    (h : t'.cols.map (fun p => (p.1, p.2.length)) = t.cols.map (fun p => (p.1, p.2.length))) :
    t'.nrows = t.nrows := by
  rcases hc : t.cols with _ | ⟨p, r⟩ <;> rcases hc' : t'.cols with _ | ⟨p', r'⟩ <;>
    rw [hc, hc'] at h
  · rw [nrows_nil hc, nrows_nil hc']
  · simp at h
  · simp at h
  · simp only [List.map_cons, List.cons.injEq, Prod.mk.injEq] at h
    rw [nrows_cons hc, nrows_cons hc']
    exact h.1.2

lemma setCol_wf {t : Table} (name : String) {c : Col} (hwf : t.wellFormed)
    (hlen : c.length = t.nrows) :
    (t.setCol name c).wellFormed ∧ (t.setCol name c).nrows = t.nrows := by
  obtain ⟨l⟩ := t
  simp only [Table.setCol]
  by_cases hany : l.any (fun p => p.1 == name) = true
  · rw [if_pos hany]
    rcases l with _ | ⟨p, r⟩
    · simp at hany
    · simp only [List.map_cons]
      have hnr : Table.nrows ⟨(if (p.1 == name) = true then (name, c) else p) ::
          r.map (fun q => if (q.1 == name) = true then (name, c) else q)⟩ =
          Table.nrows ⟨p :: r⟩ := by
        by_cases hp : (p.1 == name) = true
        · rw [if_pos hp, nrows_mk_cons, nrows_mk_cons]
          exact hlen
        · rw [if_neg hp]
          rfl
      refine ⟨?_, hnr⟩
      intro q hq
      rw [hnr]
      rw [show ((if (p.1 == name) = true then (name, c) else p) ::
          r.map (fun q => if (q.1 == name) = true then (name, c) else q)) =
          (p :: r).map (fun q => if (q.1 == name) = true then (name, c) else q) from rfl] at hq
      obtain ⟨p0, hp0, hfp⟩ := List.mem_map.mp hq
      by_cases hp : (p0.1 == name) = true
      · rw [if_pos hp] at hfp
        rw [← hfp]
        exact hlen
      · rw [if_neg hp] at hfp
        rw [← hfp]
        exact hwf p0 hp0
  · rw [if_neg hany]
    rcases l with _ | ⟨p, r⟩
    · constructor
      · intro q hq
        have hq2 : q = (name, c) := by simpa using hq
        rw [hq2]
        rfl
      · exact hlen
    · constructor
      · intro q hq
        have hnr : Table.nrows ⟨(p :: r) ++ [(name, c)]⟩ = Table.nrows ⟨p :: r⟩ := rfl
        rw [hnr]
        rcases List.mem_append.mp hq with h1 | h1
        · exact hwf q h1
        · have hq2 : q = (name, c) := by simpa using h1
          rw [hq2]
          exact hlen
      · rfl

lemma zipWith3_length (f : Option ℚ → Option ℚ → Option ℚ → Option ℚ) :
    ∀ (as bs cs : List (Option ℚ)) (n : Nat), as.length = n → bs.length = n →
      cs.length = n → (zipWith3 f as bs cs).length = n := by
  intro as
  induction as with
  | nil =>
    intro bs cs n ha _ _
    simp only [List.length_nil] at ha
    rw [← ha]
    rfl
  | cons a as ih =>
    intro bs cs n ha hb hc
    rcases bs with _ | ⟨b, bs⟩
    · exfalso
      simp only [List.length_cons, List.length_nil] at ha hb
      omega
    · rcases cs with _ | ⟨c0, cs⟩
      · exfalso
        simp only [List.length_cons, List.length_nil] at ha hc
        omega
      · simp only [List.length_cons] at ha hb hc
        simp only [zipWith3, List.length_cons]
        have h2 := ih bs cs as.length rfl (by omega) (by omega)
        omega

lemma getNumCells_length {t : Table} {name : String} {cells : List (Option ℚ)}
    (h : getNumCells t name = .ok cells) (hwf : t.wellFormed) : cells.length = t.nrows := by
  have hm := getCol?_mem (getNumCells_ok h)
  have h2 := hwf _ hm
  simpa [Col.length] using h2

/-! ### Claims about the Feature Deriver -/

/-- Claim C1 (code bug): when `Month` is absent the seasonal derivation is
silently skipped and no `Season` column appears, as claimed; but when
`Month` is present the claimed binning never happens — `pd.cut` raises
`ValueError` because the label list repeats "Winter" while `ordered`
defaults to `True`, so `feature_engineering` raises instead of assigning
seasons. -/
theorem claim_C1 :
    feature_engineering T1month =
      Except.error "ValueError: labels must be unique if ordered=True" ∧
    feature_engineering T5 = Except.ok T5out ∧
    T5out.getCol? "Season" = none ∧ T5.getCol? "Month" = none := by
  refine ⟨by decide, by decide, by decide, by decide⟩

/-- Claim C5: every row of the table returned by `feature_engineering` has
`Decade = (Year // 10) * 10` (floor division), `Climate_Risk_Score =
0.3*Flood_Impact_Score + 0.3*Drought_Severity + 0.4*Cyclone_Count`, and
`Environmental_Health_Index = (0.4*Forest_Cover_Percent + 0.3*(100 - AQI) +
0.3*Renewable_Energy_Usage_Percent) / 100`, computed cell-wise on the
input columns. -/
theorem claim_C5 (df out : Table) (h : feature_engineering df = .ok out)
    (year fl dr cy fo aq ren : List (Option ℚ))
    (hy : df.getCol? "Year" = some (.numeric year))
    (hfl : df.getCol? "Flood_Impact_Score" = some (.numeric fl))
    (hdr : df.getCol? "Drought_Severity" = some (.numeric dr))
    (hcy : df.getCol? "Cyclone_Count" = some (.numeric cy))
    (hfo : df.getCol? "Forest_Cover_Percent" = some (.numeric fo))
    (haq : df.getCol? "AQI" = some (.numeric aq))
    (hren : df.getCol? "Renewable_Energy_Usage_Percent" = some (.numeric ren)) :
    out.getCol? "Decade" = some (decadeCol year) ∧
    out.getCol? "Climate_Risk_Score" = some (crsCol fl dr cy) ∧
    out.getCol? "Environmental_Health_Index" = some (ehiCol fo aq ren) ∧
    (∀ y : ℚ, decadeOf y = ((⌊y / 10⌋ : ℤ) : ℚ) * 10) ∧
    (∀ a b e : ℚ, crsCell (some a) (some b) (some e) = some (a * 0.3 + b * 0.3 + e * 0.4)) ∧
    (∀ x y z : ℚ, ehiCell (some x) (some y) (some z) =
      some ((x * 0.4 + (100 - y) * 0.3 + z * 0.3) / 100)) := by
  obtain ⟨year2, fl2, dr2, cy2, fo2, aq2, ren2, hy2, hfl2, hdr2, hcy2, hfo2, haq2, hren2,
    hmon2, hout⟩ := fe_ok_struct h
  have hyy : year2 = year := by
    have h2 := getNumCells_ok hy2
    rw [hy] at h2
    exact (Col.numeric.inj (Option.some.inj h2)).symm
  subst hyy
  have hfl3 : fl2 = fl := by
    have h2 := getNumCells_ok hfl2
    rw [getCol?_setCol_ne _ _ (by decide), hfl] at h2
    exact (Col.numeric.inj (Option.some.inj h2)).symm
  subst hfl3
  have hdr3 : dr2 = dr := by
    have h2 := getNumCells_ok hdr2
    rw [getCol?_setCol_ne _ _ (by decide), hdr] at h2
    exact (Col.numeric.inj (Option.some.inj h2)).symm
  subst hdr3
  have hcy3 : cy2 = cy := by
    have h2 := getNumCells_ok hcy2
    rw [getCol?_setCol_ne _ _ (by decide), hcy] at h2
    exact (Col.numeric.inj (Option.some.inj h2)).symm
  subst hcy3
  have hfo3 : fo2 = fo := by
    have h2 := getNumCells_ok hfo2
    rw [getCol?_setCol_ne _ _ (by decide), getCol?_setCol_ne _ _ (by decide), hfo] at h2
    exact (Col.numeric.inj (Option.some.inj h2)).symm
  subst hfo3
  have haq3 : aq2 = aq := by
    have h2 := getNumCells_ok haq2
    rw [getCol?_setCol_ne _ _ (by decide), getCol?_setCol_ne _ _ (by decide), haq] at h2
    exact (Col.numeric.inj (Option.some.inj h2)).symm
  subst haq3
  have hren3 : ren2 = ren := by
    have h2 := getNumCells_ok hren2
    rw [getCol?_setCol_ne _ _ (by decide), getCol?_setCol_ne _ _ (by decide), hren] at h2
    exact (Col.numeric.inj (Option.some.inj h2)).symm
  subst hren3
  subst hout
  refine ⟨?_, ?_, ?_, ?_, ?_, ?_⟩
  · rw [getCol?_setCol_ne _ _ (by decide), getCol?_setCol_ne _ _ (by decide),
      getCol?_setCol_self]
  · rw [getCol?_setCol_ne _ _ (by decide), getCol?_setCol_self]
  · rw [getCol?_setCol_self]
  · intro y
    unfold decadeOf
    rw [qfloor_eq_floor]
  · intro a b e
    rfl
  · intro x y z
    rfl

/-- Witness for C5 at the spec's concrete row: Decade 1990,
Climate_Risk_Score 2.5, Environmental_Health_Index -0.04. -/
theorem claim_C5_witness :
    feature_engineering T5 = Except.ok T5out ∧
    T5out.getCol? "Decade" = some (Col.numeric [some 1990]) ∧
    T5out.getCol? "Climate_Risk_Score" = some (Col.numeric [some 2.5]) ∧
    T5out.getCol? "Environmental_Health_Index" = some (Col.numeric [some (-0.04)]) := by
  have h := claim_C5 T5 T5out (by decide) [some 1995] [some 5] [some 2] [some 1] [some 20]
    [some 150] [some 10] (by decide) (by decide) (by decide) (by decide) (by decide)
    (by decide) (by decide)
  refine ⟨by decide, ?_, ?_, ?_⟩
  · rw [h.1]
    decide
  · rw [h.2.1]
    decide
  · rw [h.2.2.1]
    decide

/-- Claim C7: `clean_data` preserves every column's name and cell count
(clipping never removes rows), and `feature_engineering` preserves the row
count of a rectangular table (it only adds columns, each with the same
number of rows). -/
theorem claim_C7 (df outC outF : Table) :
    (clean_data df = .ok outC →
      outC.cols.map (fun p => (p.1, p.2.length)) = df.cols.map (fun p => (p.1, p.2.length)) ∧
      outC.nrows = df.nrows) ∧
    (feature_engineering df = .ok outF → df.wellFormed →
      outF.nrows = df.nrows ∧ outF.wellFormed) := by
  constructor
  · intro h
    obtain ⟨mid, hf, hout⟩ := clean_data_ok h
    have h1 := fill_length_names (fillTable_ok hf)
    have h2 : outC.cols.map (fun p => (p.1, p.2.length)) =
        mid.cols.map (fun p => (p.1, p.2.length)) := by
      rw [hout]
      exact clipTable_length_names mid
    have h3 := h2.trans h1
    exact ⟨h3, nrows_of_length_names h3⟩
  · intro h hwf
    obtain ⟨year, fl, dr, cy, fo, aq, ren, hy, hfl, hdr, hcy, hfo, haq, hren, hmon, hout⟩ :=
      fe_ok_struct h
    have hylen : year.length = df.nrows := getNumCells_length hy hwf
    have hw1 := setCol_wf "Decade" hwf
      (show (decadeCol year).length = df.nrows by
        simpa [decadeCol, Col.length] using hylen)
    have hfllen : fl.length = df.nrows := by
      have h2 := getNumCells_length hfl hw1.1
      rw [hw1.2] at h2
      exact h2
    have hdrlen : dr.length = df.nrows := by
      have h2 := getNumCells_length hdr hw1.1
      rw [hw1.2] at h2
      exact h2
    have hcylen : cy.length = df.nrows := by
      have h2 := getNumCells_length hcy hw1.1
      rw [hw1.2] at h2
      exact h2
    have hw2 := setCol_wf "Climate_Risk_Score" hw1.1
      (show (crsCol fl dr cy).length = (df.setCol "Decade" (decadeCol year)).nrows by
        rw [hw1.2]
        simpa [crsCol, Col.length] using
          zipWith3_length crsCell fl dr cy df.nrows hfllen hdrlen hcylen)
    have hfolen : fo.length = df.nrows := by
      have h2 := getNumCells_length hfo hw2.1
      rw [hw2.2, hw1.2] at h2
      exact h2
    have haqlen : aq.length = df.nrows := by
      have h2 := getNumCells_length haq hw2.1
      rw [hw2.2, hw1.2] at h2
      exact h2
    have hrenlen : ren.length = df.nrows := by
      have h2 := getNumCells_length hren hw2.1
      rw [hw2.2, hw1.2] at h2
      exact h2
    have hw3 := setCol_wf "Environmental_Health_Index" hw2.1
      (show (ehiCol fo aq ren).length =
          ((df.setCol "Decade" (decadeCol year)).setCol "Climate_Risk_Score"
            (crsCol fl dr cy)).nrows by
        rw [hw2.2, hw1.2]
        simpa [ehiCol, Col.length] using
          zipWith3_length ehiCell fo aq ren df.nrows hfolen haqlen hrenlen)
    rw [hout]
    exact ⟨hw3.2.trans (hw2.2.trans hw1.2), hw3.1⟩

/-- Witness for C7: row counts are preserved on concrete tables through
both the Cleaner (rows stay 3) and the Feature Deriver (rows stay 1). -/
theorem claim_C7_witness :
    clean_data T2w = Except.ok T2wOut ∧ feature_engineering T5 = Except.ok T5out ∧
    T2wOut.nrows = T2w.nrows ∧ T5out.nrows = T5.nrows ∧ T5out.wellFormed := by
  refine ⟨by decide, by decide, ?_, ?_, ?_⟩
  · exact ((claim_C7 T2w T2wOut T5out).1 (by decide)).2
  · exact ((claim_C7 T5 T2wOut T5out).2 (by decide) (by decide)).1
  · exact ((claim_C7 T5 T2wOut T5out).2 (by decide) (by decide)).2

/-! ### Regional Partitioner lemmas -/

lemma toNat_eq_if (b : Bool) : b.toNat = if b = true then 1 else 0 := by
  cases b <;> rfl

lemma contains_false {l : List String} {v : String} (h : v ∉ l) : l.contains v = false := by
  cases hcv : l.contains v
  · rfl
  · exact absurd (List.elem_iff.mp hcv) h

lemma contains_true {l : List String} {v : String} (h : v ∈ l) : l.contains v = true :=
  List.elem_iff.mpr h

lemma disj_coastal_northern : ∀ v ∈ coastalDistricts, v ∉ northernDistricts := by decide

lemma disj_coastal_central : ∀ v ∈ coastalDistricts, v ∉ centralDistricts := by decide

lemma disj_northern_central : ∀ v ∈ northernDistricts, v ∉ centralDistricts := by decide

/-- Each district value satisfies exactly one of the four region tests. -/
lemma cell_indicator (x : Option String) :
    ((match x with
      | some v => coastalDistricts.contains v
      | none => false) : Bool).toNat +
    ((match x with
      | some v => northernDistricts.contains v
      | none => false) : Bool).toNat +
    ((match x with
      | some v => centralDistricts.contains v
      | none => false) : Bool).toNat +
    (!(match x with
      | some v => (coastalDistricts ++ northernDistricts ++ centralDistricts).contains v
      | none => false)).toNat = 1 := by
  rcases x with _ | v
  · rfl
  · by_cases h1 : v ∈ coastalDistricts
    · have hn : v ∉ northernDistricts := disj_coastal_northern v h1
      have hc : v ∉ centralDistricts := disj_coastal_central v h1
      simp [toNat_eq_if, h1, hn, hc]
    · by_cases h2 : v ∈ northernDistricts
      · have hc : v ∉ centralDistricts := disj_northern_central v h2
        simp [toNat_eq_if, h1, h2, hc]
      · by_cases h3 : v ∈ centralDistricts
        · simp [toNat_eq_if, h1, h2, h3]
        · simp [toNat_eq_if, h1, h2, h3]

lemma maskFilter_length {α : Type} :
    ∀ (m : List Bool) (l : List α), m.length = l.length →
      (maskFilter m l).length = m.countP id := by
  intro m
  induction m with
  | nil => intro l _; rfl
  | cons b bs ih =>
    intro l h
    rcases l with _ | ⟨x, xs⟩
    · simp at h
    · simp only [List.length_cons] at h
      simp only [maskFilter]
      cases b <;> simp [List.countP_cons, ih xs (by omega)]

lemma isinMask_length (c : Col) (lst : List String) : (isinMask c lst).length = c.length := by
  rcases c with cells | cells <;> simp [isinMask, Col.length]

lemma notMask_length (m : List Bool) : (notMask m).length = m.length := by
  simp [notMask]

lemma countP_id_map_cons {α : Type} (g : α → Bool) (x : α) (xs : List α) :
    List.countP id (List.map g (x :: xs)) = List.countP id (List.map g xs) + (g x).toNat := by
  simp [List.countP_cons, toNat_eq_if]

/-- The four region masks select every row exactly once in aggregate. -/
lemma mask_sum (c : Col) :
    (isinMask c coastalDistricts).countP id + (isinMask c northernDistricts).countP id +
    (isinMask c centralDistricts).countP id +
    (notMask (isinMask c (coastalDistricts ++ northernDistricts ++
      centralDistricts))).countP id = c.length := by
  rcases c with cells | cells
  · simp only [isinMask, notMask, List.map_map]
    induction cells with
    | nil => rfl
    | cons x xs ih =>
      simp only [countP_id_map_cons]
      simp only [Col.length, List.length_cons] at ih ⊢
      simp only [Function.comp, Bool.toNat_false, Bool.not_false, Bool.toNat_true]
      omega
  · simp only [isinMask, notMask, List.map_map]
    induction cells with
    | nil => rfl
    | cons x xs ih =>
      simp only [countP_id_map_cons]
      simp only [Col.length, List.length_cons] at ih ⊢
      have hx := cell_indicator x
      simp only [Function.comp] at ih ⊢
      omega

lemma getD_map_lt {α β : Type} (f : α → β) {l : List α} {i : Nat} (h : i < l.length)
    (d : β) (d' : α) : (l.map f).getD i d = f (l.getD i d') := by
  rw [List.getD_eq_getElem?_getD, List.getElem?_map, List.getElem?_eq_getElem h]
  simp [List.getD_eq_getElem?_getD, List.getElem?_eq_getElem h]

lemma filterTable_nrows {df : Table} {p0 : String × Col} {r : List (String × Col)}
    (hc : df.cols = p0 :: r) (m : List Bool) (hm : m.length = p0.2.length) :
    (filterTable df m).nrows = m.countP id := by
  unfold filterTable
  rw [hc]
  simp only [List.map_cons]
  rw [nrows_mk_cons]
  rcases hp : p0.2 with cells | cells <;> rw [hp] at hm <;>
    simp only [Col.length] at hm <;> simp [Col.length] <;>
    exact maskFilter_length m cells hm

/-- Claim C6: for a table with a District column the four groups returned
by `split_by_region` partition the rows — each row satisfies exactly one
region test, the four row counts sum to the input row count, and a row
whose District matches none of the three hardcoded lists falls into
`other`. -/
theorem claim_C6 (df : Table) (c : Col) (hD : df.getCol? "District" = some c)
    (hwf : df.wellFormed) :
    ∃ t1 t2 t3 t4, split_by_region df = .ok (t1, t2, t3, t4) ∧
      t1.nrows + t2.nrows + t3.nrows + t4.nrows = df.nrows ∧
      (∀ i, i < df.nrows →
        ((isinMask c coastalDistricts).getD i false).toNat +
        ((isinMask c northernDistricts).getD i false).toNat +
        ((isinMask c centralDistricts).getD i false).toNat +
        ((notMask (isinMask c (coastalDistricts ++ northernDistricts ++
          centralDistricts))).getD i false).toNat = 1) ∧
      (∀ i s, districtAt c i = some s →
        s ∉ coastalDistricts → s ∉ northernDistricts → s ∉ centralDistricts →
        (notMask (isinMask c (coastalDistricts ++ northernDistricts ++
          centralDistricts))).getD i false = true) := by
  have hmem := getCol?_mem hD
  have hclen : c.length = df.nrows := hwf _ hmem
  obtain ⟨p0, r, hc⟩ : ∃ p0 r, df.cols = p0 :: r := by
    rcases hcols : df.cols with _ | ⟨p0, r⟩
    · rw [hcols] at hmem
      exact absurd hmem (List.not_mem_nil _)
    · exact ⟨p0, r, rfl⟩
  have hp0len : p0.2.length = df.nrows := hwf p0 (by rw [hc]; exact List.mem_cons_self _ _)
  have hsplit : split_by_region df = .ok
      (filterTable df (isinMask c coastalDistricts),
       filterTable df (isinMask c northernDistricts),
       filterTable df (isinMask c centralDistricts),
       filterTable df (notMask (isinMask c (coastalDistricts ++ northernDistricts ++
         centralDistricts)))) := by
    unfold split_by_region
    rw [hD]
  refine ⟨_, _, _, _, hsplit, ?_, ?_, ?_⟩
  · rw [filterTable_nrows hc _ (by rw [isinMask_length, hclen, hp0len]),
      filterTable_nrows hc _ (by rw [isinMask_length, hclen, hp0len]),
      filterTable_nrows hc _ (by rw [isinMask_length, hclen, hp0len]),
      filterTable_nrows hc _ (by rw [notMask_length, isinMask_length, hclen, hp0len])]
    rw [mask_sum c]
    exact hclen
  · intro i hi
    rcases c with cells | cells
    · have hlen : i < cells.length := by
        simpa [Col.length, hclen] using lt_of_lt_of_le hi (le_of_eq hclen.symm)
      simp only [isinMask, notMask]
      rw [getD_map_lt _ hlen _ none]
      rw [List.map_map, getD_map_lt _ hlen _ none]
      rfl
    · have hlen : i < cells.length := by
        simpa [Col.length, hclen] using lt_of_lt_of_le hi (le_of_eq hclen.symm)
      simp only [isinMask, notMask]
      rw [getD_map_lt _ hlen _ none, getD_map_lt _ hlen _ none, getD_map_lt _ hlen _ none]
      rw [List.map_map]
      rw [getD_map_lt _ hlen _ none]
      have hx := cell_indicator (cells.getD i none)
      simpa [Function.comp] using hx
  · intro i s hds hns hnn hnc
    rcases c with cells | cells
    · exact Option.noConfusion hds
    · have hsome : cells.getD i none = some s := hds
      have hlen : i < cells.length := by
        by_contra hge
        rw [List.getD_eq_getElem?_getD, List.getElem?_eq_none (le_of_not_lt hge)] at hsome
        exact Option.noConfusion hsome
      simp only [isinMask, notMask]
      rw [List.map_map, getD_map_lt _ hlen _ none]
      have hall : s ∉ coastalDistricts ++ northernDistricts ++ centralDistricts := by
        rw [List.mem_append, List.mem_append]
        rintro ((ha | hb) | hcc)
        · exact hns ha
        · exact hnn hb
        · exact hnc hcc
      rw [List.getD_eq_getElem?_getD] at hsome
      simp [Function.comp, hsome, hns, hnn, hnc]

/-- Witness for C6: three rows split into coastal (Khulna), central
(Dhaka) and other (the unknown district "Narnia"), counts 1+0+1+1 = 3. -/
theorem claim_C6_witness :
    split_by_region T6 = Except.ok
      (⟨[("District", Col.text [some "Khulna"]), ("Year", Col.numeric [some 3])]⟩,
       ⟨[("District", Col.text []), ("Year", Col.numeric [])]⟩,
       ⟨[("District", Col.text [some "Dhaka"]), ("Year", Col.numeric [some 1])]⟩,
       ⟨[("District", Col.text [some "Narnia"]), ("Year", Col.numeric [some 2])]⟩) ∧
    (∃ t1 t2 t3 t4, split_by_region T6 = Except.ok (t1, t2, t3, t4) ∧
      t1.nrows + t2.nrows + t3.nrows + t4.nrows = T6.nrows) := by
  refine ⟨by decide, ?_⟩
  obtain ⟨t1, t2, t3, t4, hs, hsum, _, _⟩ :=
    claim_C6 T6 (Col.text [some "Dhaka", some "Narnia", some "Khulna"]) (by decide) (by decide)
  exact ⟨t1, t2, t3, t4, hs, hsum⟩

/-! ### Loader and Writer lemmas -/

lemma mem_of_getElem? {α : Type} {l : List α} {i : Nat} {a : α} (h : l[i]? = some a) :
    a ∈ l :=
  List.mem_iff_getElem?.mpr ⟨i, h⟩

lemma lt_of_getElem? {α : Type} {l : List α} {i : Nat} {a : α} (h : l[i]? = some a) :
    i < l.length := by
  by_contra hge
  rw [List.getElem?_eq_none (le_of_not_lt hge)] at h
  exact Option.noConfusion h

lemma bind_num_val (o : Option ℚ) :
    (o.map Value.num).bind (fun v => match v with
      | Value.num q => some q
      | Value.str _ => none) = o := by
  rcases o <;> rfl

lemma bind_str_val (o : Option String) :
    (o.map Value.str).bind (fun v => match v with
      | Value.str s => some s
      | Value.num _ => none) = o := by
  rcases o <;> rfl

/-- The `j`-th field of the serialized rows is exactly the cell stream of
the `j`-th column. -/
lemma csv_rows_col (df : Table) (j : Nat) (pj : String × Col) (hj : df.cols[j]? = some pj) :
    (tableToCSV df).rows.map (fun r => r.getD j none) =
      (List.range df.nrows).map (fun i => pj.2.cellVal i) := by
  unfold tableToCSV
  rw [List.map_map]
  apply List.map_congr_left
  intro i _
  simp only [Function.comp]
  rw [List.getD_eq_getElem?_getD, List.getElem?_map, hj]
  rfl

/-- Reading back one serialized column: dtype inference returns a column
with the same length and the same cell values (an all-missing text column
comes back as an all-missing numeric column, with equal serialized cells). -/
lemma colFromCells_spec (c : Col) (n : Nat) (hc : c.length = n) :
    ∃ c2, colFromCells ((List.range n).map (fun i => c.cellVal i)) = some c2 ∧
      c2.length = n ∧ ∀ i, c2.cellVal i = c.cellVal i := by
  rcases c with cells | cells
  · have hlen : cells.length = n := by simpa [Col.length] using hc
    have hall : ((List.range n).map (fun i => Col.cellVal (Col.numeric cells) i)).all
        (fun x => match x with
          | some (Value.str _) => false
          | _ => true) = true := by
      rw [List.all_eq_true]
      intro x hx
      obtain ⟨i, _, rfl⟩ := List.mem_map.mp hx
      rcases hgi : cells.getD i none with _ | q <;> simp [Col.cellVal, hgi]
    have hlist : ((List.range n).map (fun i => Col.cellVal (Col.numeric cells) i)).map
        (fun x => x.bind fun v => match v with
          | Value.num q => some q
          | Value.str _ => none) = cells := by
      rw [List.map_map]
      have hpoint : ∀ i ∈ List.range n,
          ((fun x => x.bind fun v => match v with
            | Value.num q => some q
            | Value.str _ => none) ∘ fun i => Col.cellVal (Col.numeric cells) i) i =
          (fun i => cells.getD i none) i := by
        intro i _
        simp only [Function.comp, Col.cellVal]
        exact bind_num_val _
      rw [List.map_congr_left hpoint, ← hlen]
      exact range_map_getD cells none
    refine ⟨Col.numeric cells, ?_, by simpa [Col.length] using hlen, fun i => rfl⟩
    unfold colFromCells
    rw [if_pos hall, hlist]
  · have hlen : cells.length = n := by simpa [Col.length] using hc
    by_cases hnone : ∀ x ∈ cells, x = none
    · have hgetnone : ∀ i : Nat, cells[i]?.getD none = none := by
        intro i
        rcases hge : cells[i]? with _ | x
        · rfl
        · have hx := hnone x (mem_of_getElem? hge)
          rw [hx]
          rfl
      have hall : ((List.range n).map (fun i => Col.cellVal (Col.text cells) i)).all
          (fun x => match x with
            | some (Value.str _) => false
            | _ => true) = true := by
        rw [List.all_eq_true]
        intro x hx
        obtain ⟨i, _, rfl⟩ := List.mem_map.mp hx
        simp [Col.cellVal, List.getD_eq_getElem?_getD, hgetnone i]
      have hlist : ((List.range n).map (fun i => Col.cellVal (Col.text cells) i)).map
          (fun x => x.bind fun v => match v with
            | Value.num q => some q
            | Value.str _ => none) = (List.range n).map (fun _ => none) := by
        rw [List.map_map]
        apply List.map_congr_left
        intro i _
        simp [Function.comp, Col.cellVal, List.getD_eq_getElem?_getD, hgetnone i]
      have hgn2 : ∀ i : Nat,
          (((List.range n).map (fun _ => none)) : List (Option ℚ)).getD i none = none := by
        intro i
        by_cases hi : i < n
        · rw [getD_map_lt _ (by simpa using hi) none 0]
        · rw [List.getD_eq_getElem?_getD,
            List.getElem?_eq_none (by simpa using le_of_not_lt hi)]
          rfl
      refine ⟨Col.numeric ((List.range n).map (fun _ => none)), ?_, by simp [Col.length], ?_⟩
      · unfold colFromCells
        rw [if_pos hall, hlist]
      · intro i
        show (((List.range n).map (fun _ => (none : Option ℚ))).getD i none).map Value.num =
          ((cells.getD i none).map Value.str)
        rw [hgn2 i, List.getD_eq_getElem?_getD, hgetnone i]
        rfl
    · push_neg at hnone
      obtain ⟨x, hx, hxn⟩ := hnone
      rcases x with _ | s
      · exact absurd rfl hxn
      obtain ⟨i0, hge⟩ := List.getElem?_of_mem hx
      have hi0 : i0 < n := by
        rw [← hlen]
        exact lt_of_getElem? hge
      have hfalse : ((List.range n).map (fun i => Col.cellVal (Col.text cells) i)).all
          (fun x => match x with
            | some (Value.str _) => false
            | _ => true) = false := by
        rw [List.all_eq_false]
        refine ⟨Col.cellVal (Col.text cells) i0, List.mem_map.mpr
          ⟨i0, List.mem_range.mpr hi0, rfl⟩, ?_⟩
        simp [Col.cellVal, List.getD_eq_getElem?_getD, hge]
      have hall2 : ((List.range n).map (fun i => Col.cellVal (Col.text cells) i)).all
          (fun x => match x with
            | some (Value.num _) => false
            | _ => true) = true := by
        rw [List.all_eq_true]
        intro x hx2
        obtain ⟨i, _, rfl⟩ := List.mem_map.mp hx2
        rcases hgi : cells.getD i none with _ | q <;> simp [Col.cellVal, hgi]
      have hlist : ((List.range n).map (fun i => Col.cellVal (Col.text cells) i)).map
          (fun x => x.bind fun v => match v with
            | Value.str s => some s
            | Value.num _ => none) = cells := by
        rw [List.map_map]
        have hpoint : ∀ i ∈ List.range n,
            ((fun x => x.bind fun v => match v with
              | Value.str s => some s
              | Value.num _ => none) ∘ fun i => Col.cellVal (Col.text cells) i) i =
            (fun i => cells.getD i none) i := by
          intro i _
          simp only [Function.comp, Col.cellVal]
          exact bind_str_val _
        rw [List.map_congr_left hpoint, ← hlen]
        exact range_map_getD cells none
      refine ⟨Col.text cells, ?_, by simpa [Col.length] using hlen, fun i => rfl⟩
      unfold colFromCells
      rw [if_neg (by rw [hfalse]; exact Bool.false_ne_true), if_pos hall2, hlist]

lemma buildCols_spec (rows : List (List (Option Value))) (n : Nat) :
    ∀ (tail : List (String × Col)) (j : Nat),
      (∀ (k : Nat) (p : String × Col), tail[k]? = some p →
        rows.map (fun r => r.getD (j + k) none) =
          (List.range n).map (fun i => p.2.cellVal i) ∧ p.2.length = n) →
      ∃ cols2, buildCols rows (tail.map Prod.fst) j = some cols2 ∧
        cols2.length = tail.length ∧
        ∀ (k : Nat) (p2 : String × Col), cols2[k]? = some p2 →
          ∃ p, tail[k]? = some p ∧ p2.1 = p.1 ∧ p2.2.length = n ∧
            ∀ i, p2.2.cellVal i = p.2.cellVal i := by
  intro tail
  induction tail with
  | nil =>
    intro j _
    refine ⟨[], rfl, rfl, ?_⟩
    intro k p2 h
    simp at h
  | cons p rest ih =>
    intro j hH
    have hhead := hH 0 p (by simp)
    rw [Nat.add_zero] at hhead
    obtain ⟨hext, hplen⟩ := hhead
    obtain ⟨c2, hc2, hc2len, hc2cell⟩ := colFromCells_spec p.2 n hplen
    have hH2 : ∀ (k : Nat) (q : String × Col), rest[k]? = some q →
        rows.map (fun r => r.getD (j + 1 + k) none) =
          (List.range n).map (fun i => q.2.cellVal i) ∧ q.2.length = n := by
      intro k q hkq
      have h2 := hH (k + 1) q (by simpa using hkq)
      rw [show j + (k + 1) = j + 1 + k by omega] at h2
      exact h2
    obtain ⟨cols2, hbuild, hlen2, hpt⟩ := ih (j + 1) hH2
    refine ⟨(p.1, c2) :: cols2, ?_, by simp [hlen2], ?_⟩
    · simp only [List.map_cons, buildCols]
      rw [hext, hc2, hbuild]
    · intro k p2 hk
      cases k with
      | zero =>
        simp only [List.getElem?_cons_zero] at hk ⊢
        have hp2 := Option.some.inj hk
        refine ⟨p, rfl, ?_, ?_, ?_⟩
        · rw [← hp2]
        · rw [← hp2]
          exact hc2len
        · intro i
          rw [← hp2]
          exact hc2cell i
      | succ k2 =>
        simp only [List.getElem?_cons_succ] at hk ⊢
        exact hpt k2 p2 hk

/-- Claim C8: the Writer emits exactly the column names as header (no
synthetic index column), and re-loading the written file and writing it
again reproduces the same file — column set, row count and cell values are
preserved.  Cell text rendering is abstracted ("modulo stable
floating-point formatting"); distinct column names are assumed because
pandas mangles duplicate headers on reload. -/
theorem claim_C8 (df : Table) (hwf : df.wellFormed)
    (hnd : (df.cols.map Prod.fst).Nodup) :
    (tableToCSV df).header = df.cols.map Prod.fst ∧
    ∃ df2, csvToTable (tableToCSV df) = some df2 ∧ df2.nrows = df.nrows ∧
      tableToCSV df2 = tableToCSV df := by
  refine ⟨rfl, ?_⟩
  have hH : ∀ (k : Nat) (p : String × Col), df.cols[k]? = some p →
      (tableToCSV df).rows.map (fun r => r.getD (0 + k) none) =
        (List.range df.nrows).map (fun i => p.2.cellVal i) ∧ p.2.length = df.nrows := by
    intro k p hk
    constructor
    · rw [Nat.zero_add]
      exact csv_rows_col df k p hk
    · exact hwf p (mem_of_getElem? hk)
  obtain ⟨cols2, hbuild, hlen2, hpt⟩ := buildCols_spec (tableToCSV df).rows df.nrows df.cols 0 hH
  have hnr2 : Table.nrows ⟨cols2⟩ = df.nrows := by
    rcases hc : df.cols with _ | ⟨p0, r⟩ <;> rcases hc2 : cols2 with _ | ⟨q0, r2⟩
    · rw [nrows_mk_nil, nrows_nil hc]
    · exfalso
      rw [hc, hc2] at hlen2
      simp at hlen2
    · exfalso
      rw [hc, hc2] at hlen2
      simp at hlen2
    · obtain ⟨p, _, _, hqlen, _⟩ := hpt 0 q0 (by rw [hc2]; simp)
      rw [nrows_mk_cons]
      exact hqlen
  have hheads : cols2.map Prod.fst = df.cols.map Prod.fst := by
    apply List.ext_getElem?
    intro k
    rw [List.getElem?_map, List.getElem?_map]
    rcases hk : cols2[k]? with _ | q
    · have hnone2 : df.cols[k]? = none := by
        rw [List.getElem?_eq_none]
        rw [← hlen2]
        exact List.getElem?_eq_none_iff.mp hk
      rw [hnone2]
    · obtain ⟨p, hp, hname, _, _⟩ := hpt k q hk
      rw [hp]
      simp [hname]
  refine ⟨⟨cols2⟩, ?_, hnr2, ?_⟩
  · unfold csvToTable
    rw [show (tableToCSV df).header = df.cols.map Prod.fst from rfl, hbuild]
    rfl
  · unfold tableToCSV
    rw [hnr2]
    have hrows : ∀ i, cols2.map (fun p => p.2.cellVal i) =
        df.cols.map (fun p => p.2.cellVal i) := by
      intro i
      apply List.ext_getElem?
      intro k
      rw [List.getElem?_map, List.getElem?_map]
      rcases hk : cols2[k]? with _ | q
      · have hnone2 : df.cols[k]? = none := by
          rw [List.getElem?_eq_none]
          rw [← hlen2]
          exact List.getElem?_eq_none_iff.mp hk
        rw [hnone2]
      · obtain ⟨p, hp, _, _, hcell⟩ := hpt k q hk
        rw [hp]
        simp [hcell i]
    rw [show (⟨cols2⟩ : Table).cols = cols2 from rfl]
    rw [hheads]
    congr 1
    apply List.map_congr_left
    intro i _
    exact hrows i

/-- Witness for C8 at a two-row table with a missing numeric cell: the
serialized header has no index column, and the round trip reproduces the
table and its serialization exactly. -/
theorem claim_C8_witness :
    (tableToCSV T8).header = ["Year", "District"] ∧
    csvToTable (tableToCSV T8) = some T8 ∧
    (∃ df2, csvToTable (tableToCSV T8) = some df2 ∧ df2.nrows = T8.nrows ∧
      tableToCSV df2 = tableToCSV T8) := by
  refine ⟨by decide, by decide, ?_⟩
  exact (claim_C8 T8 (by decide) (by decide)).2

/-- Claim C9: the try/except of `load_data` turns any read failure into the
explicit no-result value `None` after printing the reason, and the
try/except of `save_processed_data` turns any write failure into a normal
return after printing the reason; on success the Writer persists the
serialized table and reports the destination path. -/
theorem claim_C9 :
    (∀ e, load_data (Except.error e) = (none, "Error loading dataset: " ++ e)) ∧
    (∀ df path e, save_processed_data df path (Except.error e) =
      (none, "Error saving processed data: " ++ e)) ∧
    (∀ df path, save_processed_data df path (Except.ok ()) =
      (some (tableToCSV df), "Processed data saved to " ++ path)) := by
  exact ⟨fun e => rfl, fun df path e => rfl, fun df path => rfl⟩

end ClimatePrep
